import Mathlib

/-!
Verification of the deterministic visualization-inference engine of the
GCP_AIDeployments repository against its specification.

The development shallowly embeds the Python sources:
  * `app/app_utils/viz_parser.py`  (namespace `VizP`)
  * `app/agent.py`, visualization section  (namespace `Agent`)
  * `app/app_utils/formatters.py`  (namespace `Fmt`)

Strings are modelled as `List Char` (Python `str` code points); Python
floats are modelled as exact rationals `ℚ` (the numeric literals handled
by this code are short decimal strings, for which Python's float
round-trip printing agrees with the exact decimal form); `re.findall` /
`re.match` calls are embedded as dedicated deterministic scanners, one
per regex literal of the source, reproducing the leftmost,
non-overlapping, greedy-with-backtracking semantics of the specific
pattern.  All definitions are fuel-free structural recursions or carry an
explicit fuel equal to the input length, so that every concrete claim
instance evaluates inside the kernel.
-/

set_option maxRecDepth 20000
set_option maxHeartbeats 4000000

/-! ### Basic character classes (Python `re` classes, ASCII + Spanish letters) -/

/-- Python `\s` (the white-space characters occurring in this code's data). -/
def isWs (c : Char) : Bool :=
  c = ' ' || c = '\t' || c = '\n' || c = '\r' || c = '\x0b' || c = '\x0c'

/-- The class `[:\s]` used by the label/value separator of every pattern. -/
def isColonWs (c : Char) : Bool := c = ':' || isWs c

/-- The class `[\d.,]` of numeric literals. -/
def isNumChar (c : Char) : Bool := c.isDigit || c = '.' || c = ','

/-- Lower-case Spanish accented letters appearing in the source's classes. -/
def accentLower : List Char := ['á', 'é', 'í', 'ó', 'ú', 'ñ']

/-- Upper-case Spanish accented letters appearing in the source's classes. -/
def accentUpper : List Char := ['Á', 'É', 'Í', 'Ó', 'Ú', 'Ñ']

/-- Python `\w` restricted to the Latin repertoire this repository's data
uses (ASCII alphanumerics, underscore, Spanish accented letters). -/
def isWordChar (c : Char) : Bool :=
  c.isAlphanum || c = '_' || accentLower.contains c || accentUpper.contains c

/-- Python `str.lower` on the character repertoire used here. -/
def toLowerPy (c : Char) : Char :=
  if c = 'Á' then 'á' else if c = 'É' then 'é' else if c = 'Í' then 'í'
  else if c = 'Ó' then 'ó' else if c = 'Ú' then 'ú' else if c = 'Ñ' then 'ñ'
  else if c = 'Ü' then 'ü' else c.toLower

/-- Python `str.upper` on the character repertoire used here. -/
def toUpperPy (c : Char) : Char :=
  if c = 'á' then 'Á' else if c = 'é' then 'É' else if c = 'í' then 'Í'
  else if c = 'ó' then 'Ó' else if c = 'ú' then 'Ú' else if c = 'ñ' then 'Ñ'
  else if c = 'ü' then 'Ü' else c.toUpper

/-- A cased letter for `str.title` purposes. -/
def isAlphaPy (c : Char) : Bool :=
  c.isAlpha || accentLower.contains c || accentUpper.contains c

/-- Python `str.strip` (strip leading/trailing white-space). -/
def pyStrip (cs : List Char) : List Char :=
  ((cs.dropWhile isWs).reverse.dropWhile isWs).reverse

/-- Substring test: does `n` occur (contiguously) inside `hay`? -/
def containsSub (n : List Char) : List Char → Bool
  | [] => n.isEmpty
  | c :: cs => n.isPrefixOf (c :: cs) || containsSub n cs

/-- Substring test on `String`s, `needle in hay` of Python. -/
def strContains (needle hay : String) : Bool := containsSub needle.data hay.data

/-- Python `str.lower` over a whole string. -/
def lowerString (s : String) : String := ⟨s.data.map toLowerPy⟩

/-- Python `str.title` (capitalize each alphabetic run, lower the rest). -/
def titleChars (prevAlpha : Bool) : List Char → List Char
  | [] => []
  | c :: cs =>
      (if isAlphaPy c then (if prevAlpha then toLowerPy c else toUpperPy c) else c)
        :: titleChars (isAlphaPy c) cs

/-- Python `str.title` on a `String`. -/
def pyTitle (s : String) : String := ⟨titleChars false s.data⟩

/-- Python `str.split('\n')`. -/
def splitLines : List Char → List (List Char)
  | [] => [[]]
  | c :: cs =>
      if c = '\n' then [] :: splitLines cs
      else match splitLines cs with
           | [] => [[c]]
           | l :: ls => (c :: l) :: ls

/-! ### Numbers: Python `float`, `int`, and their printed forms -/

/-- Value of a digit character. -/
def digitVal (c : Char) : Nat := c.toNat - 48

/-- Value of a digit string (most significant first). -/
def digitsToNat (cs : List Char) : Nat :=
  cs.foldl (fun a c => a * 10 + digitVal c) 0

/-- Python `float(s)` for the strings reachable here (digits and at most
one dot; anything else raises `ValueError`, i.e. `none`).  The value is
the exact rational denoted by the decimal literal. -/
def pyFloat (cs : List Char) : Option ℚ :=
  let ip := cs.takeWhile Char.isDigit
  let rest := cs.dropWhile Char.isDigit
  match rest with
  | [] => if ip.isEmpty then none else some (digitsToNat ip : ℚ)
  | '.' :: fp =>
      if fp.all Char.isDigit && !(ip.isEmpty && fp.isEmpty) then
        some ((digitsToNat ip : ℚ) + (digitsToNat fp : ℚ) / (10 : ℚ) ^ fp.length)
      else none
  | _ => none

/-- Python `int(s)` for the digit-only strings reachable here. -/
def pyInt (cs : List Char) : Option ℤ :=
  if !cs.isEmpty && cs.all Char.isDigit then some (digitsToNat cs : ℤ) else none

/-- A Python number together with its runtime type (`int` vs `float`),
which matters for `str(rows)`. -/
structure PyNum where
  val : ℚ
  isFloat : Bool
deriving DecidableEq

/-- An extracted `[label, value]` row. -/
abbrev PyRow := String × PyNum

/-- Decimal digits of `n` (fuel-based so the kernel can evaluate it). -/
def natDigits : Nat → Nat → List Char
  | 0, _ => []
  | fuel + 1, n =>
      if n < 10 then [Char.ofNat (48 + n)]
      else natDigits fuel (n / 10) ++ [Char.ofNat (48 + n % 10)]

/-- Python `str(n)` for a natural number. -/
def natStr (n : Nat) : String := ⟨natDigits 40 n⟩

/-- Python `str(z)` for an integer. -/
def intStr (z : ℤ) : String :=
  if z < 0 then "-" ++ natStr z.natAbs else natStr z.natAbs

/-- Least `acc ≤ acc + fuel` with `d ∣ 10 ^ acc` (the parsed decimals
always have such an exponent). -/
def pow10Exp (d : Nat) : Nat → Nat → Nat
  | 0, acc => acc
  | f + 1, acc => if d ∣ 10 ^ acc then acc else pow10Exp d f (acc + 1)

/-- Python `str(x)` for the nonnegative floats produced by this code:
the exact shortest decimal form (integral floats print with `.0`). -/
def floatStr (q : ℚ) : String :=
  let k := pow10Exp q.den 40 0
  if k = 0 then intStr q.num ++ ".0"
  else
    let digits := (q.num.natAbs * 10 ^ k) / q.den
    let ipart := digits / 10 ^ k
    let fpart := digits % 10 ^ k
    let fraw := natDigits 40 fpart
    let fpad := List.replicate (k - fraw.length) '0' ++ fraw
    natStr ipart ++ "." ++ ⟨fpad⟩

/-- Python `str` of a list element that is a number. -/
def pyNumStr (n : PyNum) : String :=
  if n.isFloat then floatStr n.val else intStr n.val.num

/-- Python `repr` of a label string (single quotes; the labels reaching
`str(rows)` here contain no quotes or control characters, for which this
is exact). -/
def pyReprStr (s : String) : String :=
  "'" ++ ⟨s.data.foldr (fun c acc =>
      if c = '\\' then '\\' :: '\\' :: acc
      else if c = '\'' then '\\' :: '\'' :: acc
      else if c = '\n' then '\\' :: 'n' :: acc
      else if c = '\t' then '\\' :: 't' :: acc
      else if c = '\r' then '\\' :: 'r' :: acc
      else c :: acc) []⟩ ++ "'"

/-- Python `str(rows)` for a list of `[label, value]` rows. -/
def pyStrRows (rows : List PyRow) : String :=
  "[" ++ String.intercalate ", "
      (rows.map (fun r => "[" ++ pyReprStr r.1 ++ ", " ++ pyNumStr r.2 ++ "]")) ++ "]"

/-- The keyword test `any(kw in question.lower() or kw in str(rows).lower() ...)`. -/
def kwAny (kws : List String) (q : String) (rows : List PyRow) : Bool :=
  kws.any (fun kw => strContains kw (lowerString q)
                  || strContains kw (lowerString (pyStrRows rows)))

/-! ### `viz_parser._parse_number` -/

namespace VizP

/-- Embedding of `viz_parser._parse_number`: locale disambiguation of a
numeric string, then `float(...)`. -/
def parse_number (v : List Char) : Option ℚ :=
  if v.contains ',' && v.contains '.' then
    pyFloat (v.filter (fun c => c ≠ ','))
  else if v.contains '.' && decide (1 < v.count '.') then
    pyFloat (v.filter (fun c => c ≠ '.'))
  else
    pyFloat (v.filter (fun c => c ≠ ',' && c ≠ '.'))

end VizP

/-! ### Regex scanners

Each Python regex literal of the source is embedded as a dedicated
scanner.  A `...MatchAt` function attempts one anchored match at the head
of its input and returns the captured group(s) together with the suffix
after the match; `findAllG`/`findAll1` then reproduce `re.findall`
(leftmost, non-overlapping, advance one character on failure). -/

/-- One attempt of `\*\s*\*\*([^*]+)\*\*[:\s]+\$?([\d.,]+)` (the bullet
pattern of both modules) at the head of the input.  Every quantified
class here is disjoint from what follows it, so greedy matching needs no
backtracking. -/
def bulletMatchAt : List Char → Option ((List Char × List Char) × List Char)
  | '*' :: cs =>
      match cs.dropWhile isWs with
      | '*' :: '*' :: cs2 =>
          let g1 := cs2.takeWhile (fun c => c ≠ '*')
          if g1.isEmpty then none else
          match cs2.dropWhile (fun c => c ≠ '*') with
          | '*' :: '*' :: cs4 =>
              if (cs4.takeWhile isColonWs).isEmpty then none else
              let cs5 := cs4.dropWhile isColonWs
              let cs6 := match cs5 with | '$' :: r => r | r => r
              let g2 := cs6.takeWhile isNumChar
              if g2.isEmpty then none else some ((g1, g2), cs6.dropWhile isNumChar)
          | _ => none
      | _ => none
  | _ => none

/-- `re.findall` driver for a two-group pattern. -/
def findAllG (matchAt : List Char → Option ((List Char × List Char) × List Char)) :
    Nat → List Char → List (List Char × List Char)
  | 0, _ => []
  | _ + 1, [] => []
  | fuel + 1, c :: cs =>
      match matchAt (c :: cs) with
      | some (g, rest) => g :: findAllG matchAt fuel rest
      | none => findAllG matchAt fuel cs

/-- `re.findall` driver for a one-group pattern. -/
def findAll1 (matchAt : List Char → Option (List Char × List Char)) :
    Nat → List Char → List (List Char)
  | 0, _ => []
  | _ + 1, [] => []
  | fuel + 1, c :: cs =>
      match matchAt (c :: cs) with
      | some (g, rest) => g :: findAll1 matchAt fuel rest
      | none => findAll1 matchAt fuel cs

/-- Case-insensitive literal at the head of the input (`re.IGNORECASE`). -/
def kwTryOne (kw : List Char) (cs : List Char) : Option (List Char) :=
  if (cs.take kw.length).map toLowerPy = kw then some (cs.drop kw.length) else none

/-- First alternative of an alternation of literals that matches at the
head (used where a later-failure retry is impossible or irrelevant
because the alternatives start with distinct letters). -/
def kwTryFirst : List (List Char) → List Char → Option (List Char)
  | [], _ => none
  | kw :: kws, cs =>
      match kwTryOne kw cs with
      | some r => some r
      | none => kwTryFirst kws cs

/-- `[:\s]+` (greedy; always safe here because `$`, digits and letters
are not in the class). -/
def sepColonWs (cs : List Char) : Option (List Char) :=
  if (cs.takeWhile isColonWs).isEmpty then none else some (cs.dropWhile isColonWs)

/-- `\d{4}X\d{2}` for a separator `X` (`-` or `/`), returning the
captured seven characters and the rest. -/
def altYmd (sep : Char) : List Char → Option (List Char × List Char)
  | a :: b :: c :: d :: s :: e :: f :: rest =>
      if a.isDigit && b.isDigit && c.isDigit && d.isDigit && s = sep
          && e.isDigit && f.isDigit then
        some ([a, b, c, d, s, e, f], rest)
      else none
  | _ => none

/-- `cls+\s+\d{4}` (e.g. `[\w]+\s+\d{4}`): greedy runs are forced because
the three classes are pairwise disjoint on their boundaries. -/
def altRun4 (cls : Char → Bool) (cs : List Char) : Option (List Char × List Char) :=
  let w := cs.takeWhile cls
  if w.isEmpty then none else
  let r1 := cs.dropWhile cls
  let sp := r1.takeWhile isWs
  if sp.isEmpty then none else
  match r1.dropWhile isWs with
  | a :: b :: c :: d :: rest =>
      if a.isDigit && b.isDigit && c.isDigit && d.isDigit then
        some (w ++ sp ++ [a, b, c, d], rest)
      else none
  | _ => none

/-- `\$?([\d.,]+)` after the separator: optional dollar sign, then a
non-empty numeric run (the group). -/
def valueTail (cs1 : List Char) : Option (List Char × List Char) :=
  (sepColonWs cs1).bind fun cs2 =>
  let cs3 := match cs2 with | '$' :: r => r | r => r
  let g := cs3.takeWhile isNumChar
  if g.isEmpty then none else some (g, cs3.dropWhile isNumChar)

/-- `(?:Total|Monto|Valor)[:\s]+\$?([\d.,]+)` (tail of the grouped
month/value pattern; the alternatives start with distinct letters). -/
def mvTailCore (cs : List Char) : Option (List Char × List Char) :=
  (kwTryFirst ["total".data, "monto".data, "valor".data] cs).bind valueTail

/-- Backtracking of the greedy `[^\d]*`: try the longest non-digit
prefix first (`k`, `k - 1`, ..., `0` characters consumed). -/
def mvTrySplit (r : List Char) : Nat → Option (List Char × List Char)
  | 0 => mvTailCore r
  | k + 1 =>
      match mvTailCore (r.drop (k + 1)) with
      | some v => some v
      | none => mvTrySplit r k

/-- `[^\d]*(?:Total|Monto|Valor)[:\s]+\$?([\d.,]+)` after the period
group, with the rightmost-first backtracking Python's engine performs. -/
def mvAfterGroup (g1 r : List Char) : Option ((List Char × List Char) × List Char) :=
  (mvTrySplit r (r.takeWhile (fun c => !c.isDigit)).length).map
    (fun gv => ((g1, gv.1), gv.2))

/-- One attempt of the grouped pattern
`(?:Mes|Periodo|Fecha)[:\s]+([\d]{4}-[\d]{2}|[\w]+\s+\d{4})[^\d]*(?:Total|Monto|Valor)[:\s]+\$?([\d.,]+)`
(flag `re.IGNORECASE`); both period alternatives are tried with the full
tail, in order. -/
def monthValueMatchAt (cs : List Char) : Option ((List Char × List Char) × List Char) :=
  (kwTryFirst ["mes".data, "periodo".data, "fecha".data] cs).bind fun cs1 =>
  (sepColonWs cs1).bind fun cs2 =>
  match altYmd '-' cs2 with
  | some (g1, r) =>
      match mvAfterGroup g1 r with
      | some res => some res
      | none => (altRun4 isWordChar cs2).bind fun gr => mvAfterGroup gr.1 gr.2
  | none => (altRun4 isWordChar cs2).bind fun gr => mvAfterGroup gr.1 gr.2

/-- Letters of the class `[A-Za-záéíóúñ]` under `re.IGNORECASE`. -/
def isMonthLetter (c : Char) : Bool :=
  c.isAlpha || accentLower.contains c || accentUpper.contains c

/-- One attempt of the fallback month pattern
`(?:Mes|Periodo|Fecha)[:\s]+(\d{4}-\d{2}|\d{4}/\d{2}|[A-Za-záéíóúñ]+\s+\d{4})`
(flag `re.IGNORECASE`; the group ends the pattern, so the first matching
alternative wins). -/
def monthMatchAt (cs : List Char) : Option (List Char × List Char) :=
  (kwTryFirst ["mes".data, "periodo".data, "fecha".data] cs).bind fun cs1 =>
  (sepColonWs cs1).bind fun cs2 =>
  match altYmd '-' cs2 with
  | some gr => some gr
  | none =>
      match altYmd '/' cs2 with
      | some gr => some gr
      | none => altRun4 isMonthLetter cs2

/-- One attempt of the fallback value pattern
`(?:Total de compras|Total facturado|Monto|Total)[:\s]+\$?([\d.,]+)`
(flag `re.IGNORECASE`); the alternatives share prefixes, so each is tried
with the full tail, in order. -/
def valueMatchAt (cs : List Char) : Option (List Char × List Char) :=
  valueKwGo ["total de compras".data, "total facturado".data, "monto".data, "total".data] cs
where valueKwGo : List (List Char) → List Char → Option (List Char × List Char)
  | [], _ => none
  | kw :: kws, cs =>
      match kwTryOne kw cs with
      | some cs1 =>
          match valueTail cs1 with
          | some v => some v
          | none => valueKwGo kws cs
      | none => valueKwGo kws cs

/-- Tail `[:\s]+\$?([\d.,]{minVal,})` of the simple-line patterns, with
`\s*$` appended when `anchored` (the whole tail is deterministic for a
fixed starting point). -/
def simpleTail (minVal : Nat) (anchored : Bool) (cs : List Char) : Option (List Char) :=
  (sepColonWs cs).bind fun cs2 =>
  let cs3 := match cs2 with | '$' :: r => r | r => r
  let g := cs3.takeWhile isNumChar
  if g.length < minVal then none
  else if anchored then
    if ((cs3.dropWhile isNumChar).dropWhile isWs).isEmpty then some g else none
  else some g

/-- Backtracking over the end of the greedy label group: the label class
contains `\s`, so Python's `\s*`/label/`[:\s]+` interplay reduces to
"largest label end that lets the tail match; the label then starts after
`min(maxW, end - 1)` leading white-space characters". -/
def simpleTryJ (minVal : Nat) (anchored : Bool) (cs : List Char) (maxW : Nat) :
    Nat → Option (List Char × List Char)
  | 0 => none
  | j + 1 =>
      match simpleTail minVal anchored (cs.drop (j + 1)) with
      | some v => some (((cs.take (j + 1)).drop (min maxW j), v))
      | none => simpleTryJ minVal anchored cs maxW j

/-- Body of the simple-line patterns after the optional bullet char:
`\s*(cls+)[:\s]+\$?([\d.,]{minVal,})` (with `\s*$` when anchored). -/
def simpleCore (cls : Char → Bool) (minVal : Nat) (anchored : Bool)
    (cs : List Char) : Option (List Char × List Char) :=
  simpleTryJ minVal anchored cs (cs.takeWhile isWs).length (cs.takeWhile cls).length

/-- One attempt of `^[•\-\*]?\s*(cls+)[:\s]+\$?([\d.,]{minVal,})...` on a
whole (stripped) line: the optional bullet is greedy, so it is consumed
first and released on failure. -/
def simpleMatch (cls : Char → Bool) (minVal : Nat) (anchored : Bool) :
    List Char → Option (List Char × List Char)
  | [] => none
  | c :: rest =>
      if c = '•' || c = '-' || c = '*' then
        match simpleCore cls minVal anchored rest with
        | some v => some v
        | none => simpleCore cls minVal anchored (c :: rest)
      else simpleCore cls minVal anchored (c :: rest)

/-- Label class `[A-Za-záéíóúñÁÉÍÓÚÑ0-9\s\.\-]` of the main simple-line
pattern. -/
def labelClassA (c : Char) : Bool :=
  c.isAlpha || accentLower.contains c || accentUpper.contains c || c.isDigit
    || isWs c || c = '.' || c = '-'

/-- Label class `[A-Za-záéíóúñ0-9\s\-]` of the fallback simple-line
pattern (no dot, no upper-case accents). -/
def labelClassB (c : Char) : Bool :=
  c.isAlpha || accentLower.contains c || c.isDigit || isWs c || c = '-'

/-- All matches of the bullet pattern. -/
def bulletFind (cs : List Char) : List (List Char × List Char) :=
  findAllG bulletMatchAt cs.length cs

/-- All matches of the grouped month/value pattern. -/
def mvFind (cs : List Char) : List (List Char × List Char) :=
  findAllG monthValueMatchAt cs.length cs

/-- All matches of the fallback month pattern. -/
def monthFind (cs : List Char) : List (List Char) :=
  findAll1 monthMatchAt cs.length cs

/-- All matches of the fallback value pattern. -/
def valueFind (cs : List Char) : List (List Char) :=
  findAll1 valueMatchAt cs.length cs

/-! ### The visualization result dictionary -/

/-- One entry of the `series` list. -/
structure SeriesEntry where
  name : String
  field : String
deriving DecidableEq

/-- The result dictionary of the visualization functions.  A field is
`none` when the corresponding key is absent from the Python dict that
the modelled branch returns. -/
structure VizResult where
  visualizable : Bool
  type : String
  reason : Option String := none
  title : Option String := none
  xAxis : Option String := none
  yAxis : Option String := none
  xAxisLabel : Option String := none
  yAxisLabel : Option String := none
  series : Option (List SeriesEntry) := none
  legendShow : Option Bool := none
  dataColumns : Option (List String) := none
  dataRows : Option (List PyRow) := none
  isTop10 : Option Bool := none
  totalRecords : Option Nat := none
  method : Option String := none
  summary : Option String := none
  fallback : Option Bool := none
  elapsedMs : Option ℚ := none
deriving DecidableEq

/-- The short-input result `{"visualizable": False, "type": "none",
"reason": "Insufficient data"}` shared by both modules. -/
def insufficientRes : VizResult :=
  { visualizable := false, type := "none", reason := some "Insufficient data" }

/-! ### Row ordering (Python's stable `list.sort`) -/

/-- Python's `<=` on strings: lexicographic by code point. -/
def listLe : List Char → List Char → Bool
  | [], _ => true
  | _ :: _, [] => false
  | a :: as, b :: bs =>
      if a.toNat = b.toNat then listLe as bs else decide (a.toNat < b.toNat)

/-- Sort key `lambda x: x[0]` (ascending by label). -/
def rowLabelLe (a b : PyRow) : Prop := listLe a.1.data b.1.data = true

/-- Sort key `lambda x: x[1]` with `reverse=True` (descending by value). -/
def rowValGe (a b : PyRow) : Prop := b.2.val ≤ a.2.val

instance : DecidableRel rowLabelLe := fun _ _ =>
  inferInstanceAs (Decidable (_ = true))

instance : DecidableRel rowValGe := fun a b =>
  inferInstanceAs (Decidable (b.2.val ≤ a.2.val))

instance : IsTotal PyRow rowLabelLe := by
  constructor
  intro a b
  show listLe a.1.data b.1.data = true ∨ listLe b.1.data a.1.data = true
  generalize a.1.data = x
  generalize b.1.data = y
  induction x generalizing y with
  | nil => exact Or.inl rfl
  | cons c cs ih =>
      cases y with
      | nil => exact Or.inr rfl
      | cons d ds =>
          by_cases hcd : c.toNat = d.toNat
          · simpa [listLe, hcd] using ih ds
          · rcases Nat.lt_or_ge c.toNat d.toNat with hlt | hge
            · exact Or.inl (by simp [listLe, hcd, hlt])
            · have hdc : d.toNat ≠ c.toNat := fun e => hcd e.symm
              have : d.toNat < c.toNat := lt_of_le_of_ne hge hdc
              exact Or.inr (by simp [listLe, hdc, this])

instance : IsTrans PyRow rowLabelLe := by
  constructor
  intro a b c
  show listLe a.1.data b.1.data = true → listLe b.1.data c.1.data = true →
    listLe a.1.data c.1.data = true
  generalize a.1.data = x
  generalize b.1.data = y
  generalize c.1.data = z
  induction x generalizing y z with
  | nil => intro _ _; rfl
  | cons u us ih =>
      cases y with
      | nil => intro h; exact absurd h (by simp [listLe])
      | cons v vs =>
          cases z with
          | nil => intro _ h; exact absurd h (by simp [listLe])
          | cons w ws =>
              intro h1 h2
              by_cases huv : u.toNat = v.toNat <;> by_cases hvw : v.toNat = w.toNat
              · rw [listLe] at h1 h2 ⊢
                rw [if_pos huv] at h1
                rw [if_pos hvw] at h2
                rw [if_pos (huv.trans hvw)]
                exact ih vs ws h1 h2
              · rw [listLe] at h1 h2 ⊢
                rw [if_pos huv] at h1
                rw [if_neg hvw] at h2
                rw [if_neg (huv ▸ hvw), huv]
                exact h2
              · rw [listLe] at h1 h2 ⊢
                rw [if_neg huv] at h1
                rw [if_pos hvw] at h2
                rw [if_neg (hvw ▸ huv), ← hvw]
                exact h1
              · rw [listLe] at h1 h2 ⊢
                rw [if_neg huv] at h1
                rw [if_neg hvw] at h2
                have l1 := of_decide_eq_true h1
                have l2 := of_decide_eq_true h2
                have l3 := Nat.lt_trans l1 l2
                rw [if_neg (Nat.ne_of_lt l3)]
                exact decide_eq_true l3

instance : IsTotal PyRow rowValGe := ⟨fun a b => le_total b.2.val a.2.val⟩

instance : IsTrans PyRow rowValGe := ⟨fun _ _ _ h h' => le_trans h' h⟩

/-- `rows.sort(key=lambda x: x[0])` — Python's sort is stable, as is
insertion sort with a non-strict relation. -/
def sortByLabel (rows : List PyRow) : List PyRow := rows.insertionSort rowLabelLe

/-- `rows.sort(key=lambda x: x[1], reverse=True)`. -/
def sortByValDesc (rows : List PyRow) : List PyRow := rows.insertionSort rowValGe

/-! ### `agent.py` — the main analyzer and its fallback -/

namespace Agent

/-- Number cleaning of the bullet branch of `agent.analyze_visualization`
(`int(float(clean_val)) if clean_val else 0`; `none` = `ValueError`). -/
def parseAgentBullet (v : List Char) : Option ℤ :=
  let clean :=
    if v.contains '.' && !v.contains ',' && decide (1 < v.count '.') then
      v.filter (fun c => c ≠ '.')
    else if v.contains ',' && v.contains '.' then
      v.filter (fun c => c ≠ ',')
    else v.filter (fun c => c ≠ '.' && c ≠ ',')
  if clean.isEmpty then some 0 else (pyFloat clean).map Rat.floor

/-- Number cleaning of the temporal and simple-line branches
(strip every dot and comma, then `int(float(...))`). -/
def parseAgentPlain (v : List Char) : Option ℤ :=
  let clean := v.filter (fun c => c ≠ '.' && c ≠ ',')
  if clean.isEmpty then some 0 else (pyFloat clean).map Rat.floor

/-- Pattern-1 stage: markdown bullets; commits `["categoria", "valor"]`
whenever the pattern matched at all. -/
def bulletRowsA (cs : List Char) : List PyRow :=
  (bulletFind cs).filterMap (fun g =>
    match parseAgentBullet g.2 with
    | some n => if 0 < n then some (⟨pyStrip g.1⟩, ⟨(n : ℚ), false⟩) else none
    | none => none)

/-- Rows found by pattern 2. -/
def mvRowsA (cs : List Char) : List PyRow :=
  (mvFind cs).filterMap (fun g =>
    match parseAgentPlain g.2 with
    | some n => if 0 < n then some (⟨pyStrip g.1⟩, ⟨(n : ℚ), false⟩) else none
    | none => none)

def stage1 (cs : List Char) : List PyRow × List String :=
  if (bulletFind cs).isEmpty then ([], [])
  else (bulletRowsA cs, ["categoria", "valor"])

/-- Pattern-2 stage: grouped month/value records, attempted only below
2 rows; overwrites the columns whenever its pattern matched at all. -/
def stage2 (cs : List Char) (rc : List PyRow × List String) : List PyRow × List String :=
  if rc.1.length < 2 then
    if (mvFind cs).isEmpty then rc
    else (rc.1 ++ mvRowsA cs, ["periodo", "total"])
  else rc

/-- Rows found by pattern 3 (simple `Label: Value` lines, value of at
least 4 numeric characters, parsed value above 1000, label truncated to
50 characters). -/
def simpleRowsA (cs : List Char) : List PyRow :=
  (splitLines cs).filterMap (fun line =>
    match simpleMatch labelClassA 4 true (pyStrip line) with
    | some (label, v) =>
        match parseAgentPlain v with
        | some n =>
            if 1000 < n then some (⟨(pyStrip label).take 50⟩, ⟨(n : ℚ), false⟩)
            else none
        | none => none
    | none => none)

/-- Pattern-3 stage: attempted only below 2 rows; sets
`["nombre", "valor"]` only when no stage committed columns before. -/
def stage3 (cs : List Char) (rc : List PyRow × List String) : List PyRow × List String :=
  if rc.1.length < 2 then
    (rc.1 ++ simpleRowsA cs,
      if rc.2.isEmpty && !(simpleRowsA cs).isEmpty then ["nombre", "valor"] else rc.2)
  else rc

/-- The full strategy chain of `agent.analyze_visualization` (STEP 1). -/
def chain (cs : List Char) : List PyRow × List String :=
  stage3 cs (stage2 cs (stage1 cs))

/-- The temporal keyword list of `agent.analyze_visualization`. -/
def mainTemporalKws : List String :=
  ["mes", "mensual", "año", "anual", "fecha", "período", "tendencia",
   "2024", "2025", "2026", "-01", "-02", "-03", "-04", "-05", "-06",
   "-07", "-08", "-09", "-10", "-11", "-12"]

/-- Temporal detection of the main path. -/
def mainIsTemporal (q : String) (rows : List PyRow) : Bool :=
  kwAny mainTemporalKws q rows

/-- STEP 2 and STEP 3 of `agent.analyze_visualization`: classify the
rows, sort, truncate and assemble the configuration dict. -/
def buildMain (rows : List PyRow) (cols : List String) (q : String) : VizResult :=
  let isTemp := mainIsTemporal q rows
  let n := rows.length
  let ctype := if isTemp then "line" else if n ≤ 6 then "pie" else "bar"
  let sorted := if isTemp then sortByLabel rows
                else if n ≤ 6 then rows else sortByValDesc rows
  let maxDisp := if isTemp then 36 else 12
  let isTop := decide (maxDisp < n)
  { visualizable := true
    type := ctype
    title := some (if isTemp then "Tendencia por Período"
      else (if isTop then "Top 10 " else "")
        ++ (if cols.isEmpty then "Datos" else pyTitle (cols.headD "")))
    xAxis := some (if cols.isEmpty then "categoria" else cols.headD "")
    yAxis := some (if 1 < cols.length then cols.getD 1 "" else "valor")
    xAxisLabel := some (if isTemp then "Período" else "Categoría")
    yAxisLabel := some "Total ($)"
    series := some [⟨"Total", if 1 < cols.length then cols.getD 1 "" else "valor"⟩]
    legendShow := some false
    dataColumns := some (if cols.isEmpty then ["categoria", "valor"] else cols)
    dataRows := some (sorted.take maxDisp)
    isTop10 := some isTop
    totalRecords := some n
    method := some "fast_deterministic" }

/-- Value parsing of fallback strategy 1 (dots stripped, commas turned
into dots, trailing dot dropped; `float` when a dot remains, else
`int`). -/
def parseExtractMonthVal (v : List Char) : Option PyNum :=
  let c1 := (v.filter (fun c => c ≠ '.')).map (fun c => if c = ',' then '.' else c)
  let c2 := if c1.getLast? = some '.' then c1.dropLast else c1
  if c2.contains '.' then (pyFloat c2).map (fun q => ⟨q, true⟩)
  else (pyInt c2).map (fun z => ⟨(z : ℚ), false⟩)

/-- Value parsing of fallback strategy 2 (US-first disambiguation, then
`int(float(...))`). -/
def parseExtractBullet (v : List Char) : Option ℤ :=
  let clean :=
    if v.contains ',' && v.contains '.' then v.filter (fun c => c ≠ ',')
    else if v.contains '.' && decide (1 < v.count '.') then v.filter (fun c => c ≠ '.')
    else v.filter (fun c => c ≠ '.' && c ≠ ',')
  if clean.isEmpty then some 0 else (pyFloat clean).map Rat.floor

/-- Value parsing of fallback strategy 3 (strip separators, `int(...)`). -/
def parseExtractSimple (v : List Char) : Option ℤ :=
  let clean := v.filter (fun c => c ≠ '.' && c ≠ ',')
  if clean.isEmpty then some 0 else pyInt clean

/-- Fallback strategy 1: zip the month matches with the value matches,
but only when both lists are non-empty and of equal length. -/
def exRows1 (cs : List Char) : List PyRow :=
  if !(monthFind cs).isEmpty && !(valueFind cs).isEmpty
      && (monthFind cs).length == (valueFind cs).length then
    ((monthFind cs).zip (valueFind cs)).filterMap (fun mv =>
      match parseExtractMonthVal mv.2 with
      | some n => if 0 < n.val then some (⟨mv.1⟩, n) else none
      | none => none)
  else []

/-- Fallback strategy 2: markdown bullets, values above 1000. -/
def exBulletRows (cs : List Char) : List PyRow :=
  (bulletFind cs).filterMap (fun g =>
    match parseExtractBullet g.2 with
    | some n => if 1000 < n then some (⟨pyStrip g.1⟩, ⟨(n : ℚ), false⟩) else none
    | none => none)

/-- Fallback strategy 3: simple lines, value of at least 6 numeric
characters, parsed value above 1000. -/
def exSimpleRows (cs : List Char) : List PyRow :=
  (splitLines cs).filterMap (fun line =>
    match simpleMatch labelClassB 6 false (pyStrip line) with
    | some (label, v) =>
        match parseExtractSimple v with
        | some n => if 1000 < n then some (⟨pyStrip label⟩, ⟨(n : ℚ), false⟩) else none
        | none => none
    | none => none)

/-- Fallback rows after strategies 1 and 2. -/
def exRows12 (cs : List Char) : List PyRow :=
  if (exRows1 cs).length < 2 then exRows1 cs ++ exBulletRows cs else exRows1 cs

/-- Fallback rows after strategies 1, 2 and 3. -/
def exRows123 (cs : List Char) : List PyRow :=
  if (exRows12 cs).length < 2 then exRows12 cs ++ exSimpleRows cs else exRows12 cs

/-- The temporal keyword list of `agent.extract_visualization_from_text`. -/
def extTemporalKws : List String :=
  ["mes", "año", "fecha", "2024", "2025", "2026", "-01", "-02", "-03"]

/-- Temporal detection of the fallback path. -/
def extIsTemporal (q : String) (rows : List PyRow) : Bool :=
  kwAny extTemporalKws q rows

/-- Sorting, truncation and assembly of the fallback configuration. -/
def extractBuild (rows : List PyRow) (q : String) : VizResult :=
  let isTemp := extIsTemporal q rows
  let sorted := if isTemp then sortByLabel rows else sortByValDesc rows
  let top := sorted.take 12
  { visualizable := true
    type := if isTemp then "line" else "bar"
    title := some ("Total por Período (" ++ natStr top.length ++ " registros)")
    xAxis := some "periodo"
    yAxis := some "total"
    xAxisLabel := some (if isTemp then "Período" else "Categoría")
    yAxisLabel := some "Total ($)"
    series := some [⟨"Total", "total"⟩]
    legendShow := some false
    dataColumns := some ["periodo", "total"]
    dataRows := some top
    isTop10 := some (decide (10 < rows.length))
    totalRecords := some rows.length
    summary := some ("Fallback: " ++ natStr top.length ++ " de "
      ++ natStr rows.length ++ " registros extraídos")
    fallback := some true }

/-- Embedding of `agent.extract_visualization_from_text`. -/
def extract_visualization_from_text (raw q : String) : VizResult :=
  if (exRows123 raw.data).length < 2 then
    { visualizable := false, type := "none",
      reason := some "Could not extract sufficient data points" }
  else extractBuild (exRows123 raw.data) q

/-- Embedding of `agent.analyze_visualization` (the wall-clock readings
of the source are only printed, never returned, and are not modelled). -/
def analyze_visualization (raw q : String) : VizResult :=
  if (pyStrip raw.data).length < 30 then insufficientRes
  else
    if (chain raw.data).1.length < 2 then extract_visualization_from_text raw q
    else buildMain (chain raw.data).1 (chain raw.data).2 q

end Agent

/-! ### `viz_parser.py` — the library variant

The wall-clock readings (`time.time()`) that reach the output through
`elapsedMs` are modelled as explicit rational parameters, in the order
the source performs them. -/

namespace VizP

/-- The temporal keyword list of `viz_parser._build_viz_config`. -/
def vpTemporalKws : List String :=
  ["mes", "mensual", "año", "anual", "fecha", "período", "tendencia",
   "2024", "2025", "2026"]

/-- Temporal detection of `viz_parser._build_viz_config`. -/
def vpIsTemporal (q : String) (rows : List PyRow) : Bool :=
  kwAny vpTemporalKws q rows

/-- Embedding of `viz_parser._build_viz_config`; `start` is the
`start_time` argument and `now` the `time.time()` reading taken while
assembling the dict. -/
def build_viz_config (rows : List PyRow) (cols : List String) (q : String)
    (start now : ℚ) : VizResult :=
  let isTemp := vpIsTemporal q rows
  let n := rows.length
  let ctype := if isTemp then "line" else if n ≤ 6 then "pie" else "bar"
  let sorted := if isTemp then sortByLabel rows
                else if n ≤ 6 then rows else sortByValDesc rows
  let maxDisp := if isTemp then 36 else 12
  { visualizable := true
    type := ctype
    title := some (if isTemp then "Tendencia por Período"
      else "Top " ++ pyTitle (cols.headD ""))
    xAxis := some (cols.headD "")
    yAxis := some (if 1 < cols.length then cols.getD 1 "" else "valor")
    dataColumns := some cols
    dataRows := some (sorted.take maxDisp)
    totalRecords := some n
    elapsedMs := some ((now - start) * 1000) }

/-- Zipped month/value rows of `viz_parser`'s fallback strategy. -/
def vpExRows (cs : List Char) : List PyRow :=
  if !(monthFind cs).isEmpty && !(valueFind cs).isEmpty
      && (monthFind cs).length == (valueFind cs).length then
    ((monthFind cs).zip (valueFind cs)).filterMap (fun mv =>
      (parse_number mv.2).bind (fun x =>
        if 0 < x then some ((⟨mv.1⟩ : String), (⟨x, true⟩ : PyNum)) else none))
  else []

/-- Embedding of `viz_parser.extract_visualization_from_text`; `ta` is
the `time.time()` passed as `start_time`, `tb` the reading taken inside
`_build_viz_config`. -/
def extract_visualization_from_text (raw q : String) (ta tb : ℚ) : VizResult :=
  if (vpExRows raw.data).length < 2 then
    { visualizable := false, type := "none", reason := some "Could not extract data" }
  else build_viz_config (vpExRows raw.data) ["periodo", "total"] q ta tb

/-- Bullet rows of pattern 1 of `viz_parser.analyze_visualization`. -/
def vpBulletRows (cs : List Char) : List PyRow :=
  (bulletFind cs).filterMap (fun g =>
    (parse_number g.2).bind (fun x =>
      if 0 < x then some ((⟨pyStrip g.1⟩ : String), (⟨x, true⟩ : PyNum)) else none))

/-- Rows of pattern 2 of `viz_parser.analyze_visualization`. -/
def vpMvRows (cs : List Char) : List PyRow :=
  (mvFind cs).filterMap (fun g =>
    (parse_number g.2).bind (fun x =>
      if 0 < x then some ((⟨pyStrip g.1⟩ : String), (⟨x, true⟩ : PyNum)) else none))

def vpStage1 (cs : List Char) : List PyRow × List String :=
  if (bulletFind cs).isEmpty then ([], [])
  else (vpBulletRows cs, ["categoria", "valor"])

/-- Pattern-2 stage of `viz_parser.analyze_visualization`. -/
def vpStage2 (cs : List Char) (rc : List PyRow × List String) : List PyRow × List String :=
  if rc.1.length < 2 then
    if (mvFind cs).isEmpty then rc
    else (rc.1 ++ vpMvRows cs, ["periodo", "total"])
  else rc

/-- Embedding of `viz_parser.analyze_visualization`; `t0` is the
`start_time` reading at entry, `t1` the next `time.time()` reading, and
`t2` the one after it (at most two of them are consumed on any branch). -/
def analyze_visualization (raw q : String) (t0 t1 t2 : ℚ) : VizResult :=
  if (pyStrip raw.data).length < 30 then insufficientRes
  else
    if (vpStage2 raw.data (vpStage1 raw.data)).1.length < 2 then
      extract_visualization_from_text raw q t1 t2
    else
      build_viz_config (vpStage2 raw.data (vpStage1 raw.data)).1
        (vpStage2 raw.data (vpStage1 raw.data)).2 q t0 t1

end VizP

/-! ### `formatters.py` — the response sanitizer -/

namespace Fmt

/-- Python `str.replace` with a one-character pattern. -/
def replace1 (a : Char) (r : List Char) : List Char → List Char
  | [] => []
  | c :: cs => if c = a then r ++ replace1 a r cs else c :: replace1 a r cs

/-- Python `str.replace` with a two-character pattern (left-to-right,
non-overlapping). -/
def replace2 (a b : Char) (r : List Char) : List Char → List Char
  | [] => []
  | [c] => [c]
  | c :: d :: cs =>
      if c = a ∧ d = b then r ++ replace2 a b r cs
      else c :: replace2 a b r (d :: cs)

/-- `re.sub(r'(?<!\\)\\n', '\n', ...)`: replace backslash-n when the
preceding character of the original text is not a backslash; `prev`
tracks that character (a position where the lookbehind blocks the match
is consumed as an ordinary character). -/
def subLookbehind : Option Char → List Char → List Char
  | _, [] => []
  | _, [c] => [c]
  | prev, c :: d :: rest =>
      if c = '\\' && d = 'n' && !(prev == some '\\') then
        '\n' :: subLookbehind (some 'n') rest
      else c :: subLookbehind (some c) (d :: rest)

/-- `re.sub(r'\n{3,}', '\n\n', ...)`: collapse every maximal run of at
least three newlines to exactly two (fuel-based, fuel ≥ length). -/
def collapseNl : Nat → List Char → List Char
  | 0, l => l
  | _ + 1, [] => []
  | fuel + 1, c :: cs =>
      if c = '\n' then
        (if 3 ≤ (cs.takeWhile (fun d => d = '\n')).length + 1 then ['\n', '\n']
         else c :: cs.takeWhile (fun d => d = '\n'))
          ++ collapseNl fuel (cs.dropWhile (fun d => d = '\n'))
      else c :: collapseNl fuel cs

/-- The stripped control-character class
`[\x00-\x08\x0b\x0c\x0e-\x1f\x7f]`. -/
def strippedCtrl (c : Char) : Bool :=
  c.toNat ≤ 8 || c.toNat = 0x0b || c.toNat = 0x0c
    || (0x0e ≤ c.toNat && c.toNat ≤ 0x1f) || c.toNat = 0x7f

/-- Passes 1–2 of `sanitize_text_for_json`: `replace('\r\n', '\n')`
then `replace('\r', '\n')`. -/
def pass1 (cs : List Char) : List Char :=
  replace1 '\r' ['\n'] (replace2 '\r' '\n' ['\n'] cs)

/-- Pass 3: `replace('\x00', '')`. -/
def pass2 (cs : List Char) : List Char := replace1 '\x00' [] cs

/-- Passes 4–5: `replace('\\n', '\n')` then `replace('\\t', '\t')` on the
two-character escape sequences. -/
def pass3 (cs : List Char) : List Char :=
  replace2 '\\' 't' ['\t'] (replace2 '\\' 'n' ['\n'] cs)

/-- Pass 6: `re.sub(r'(?<!\\)\\n', '\n', ...)`. -/
def pass4 (cs : List Char) : List Char := subLookbehind none cs

/-- Pass 7: `re.sub(r'\n{3,}', '\n\n', ...)`. -/
def pass5 (cs : List Char) : List Char := collapseNl cs.length cs

/-- Pass 8: strip the control-character class. -/
def pass6 (cs : List Char) : List Char := cs.filter (fun c => !strippedCtrl c)

/-- Embedding of `sanitize_text_for_json` as the sequence of its eight
text passes. -/
def sanitizeChars (cs : List Char) : List Char :=
  pass6 (pass5 (pass4 (pass3 (pass2 (pass1 cs)))))

/-- Embedding of `formatters.sanitize_text_for_json` (the `if not text`
guard returns `""`, which the passes also do on empty input). -/
def sanitize_text_for_json (s : String) : String :=
  if s.isEmpty then "" else ⟨sanitizeChars s.data⟩

mutual

/-- A Python value as walked by `sanitize_dict_for_json`: strings,
other scalars (numbers, booleans, `None`), lists, and dicts with string
keys (the keys this repository serializes). -/
inductive PyVal where
  | pstr (s : String)
  | patom
  | parr (elems : PyValSeq)
  | pobj (fields : PyValMap)

/-- The element spine of a Python list. -/
inductive PyValSeq where
  | nil
  | cons (hd : PyVal) (tl : PyValSeq)

/-- The key/value spine of a Python dict. -/
inductive PyValMap where
  | nil
  | cons (key : String) (val : PyVal) (tl : PyValMap)

end

mutual

/-- Embedding of `formatters.sanitize_dict_for_json` (dict keys are not
sanitized by the source; only values are). -/
def sanitize_dict_for_json : PyVal → PyVal
  | .pstr s => .pstr (sanitize_text_for_json s)
  | .patom => .patom
  | .parr l => .parr (sanitizeSeq l)
  | .pobj kvs => .pobj (sanitizeMap kvs)

/-- `sanitize_dict_for_json` on a list. -/
def sanitizeSeq : PyValSeq → PyValSeq
  | .nil => .nil
  | .cons v tl => .cons (sanitize_dict_for_json v) (sanitizeSeq tl)

/-- `sanitize_dict_for_json` on a dict. -/
def sanitizeMap : PyValMap → PyValMap
  | .nil => .nil
  | .cons k v tl => .cons k (sanitize_dict_for_json v) (sanitizeMap tl)

end

mutual

/-- The string leaves of a Python value (the strings occurring as
values; dict keys are structure, not leaves). -/
def stringLeaves : PyVal → List String
  | .pstr s => [s]
  | .patom => []
  | .parr l => seqLeaves l
  | .pobj kvs => mapLeaves kvs

/-- String leaves of a list. -/
def seqLeaves : PyValSeq → List String
  | .nil => []
  | .cons v tl => stringLeaves v ++ seqLeaves tl

/-- String leaves of a dict (values only). -/
def mapLeaves : PyValMap → List String
  | .nil => []
  | .cons _ v tl => stringLeaves v ++ mapLeaves tl

end

end Fmt

/-! ### Observations on sanitized text -/

/-- Does the two-character sequence `a b` occur contiguously in the
list?  (Used for the literal `\n` / `\t` escape artifacts.) -/
def containsSeq (a b : Char) : List Char → Bool
  | c :: d :: rest => (c = a && d = b) || containsSeq a b (d :: rest)
  | _ => false

/-- Does a run of three consecutive newlines occur in the list? -/
def hasTriple : List Char → Bool
  | a :: b :: c :: rest =>
      (a = '\n' && b = '\n' && c = '\n') || hasTriple (b :: c :: rest)
  | _ => false

/-! ### Concrete inputs used by the claim instances -/

/-- A long enough answer without any extractable label/value pair. -/
def rawNoData : String :=
  "Sin datos suficientes para construir una grafica en esta respuesta"

/-- A short answer (stripped length 27) that nevertheless contains two
well-formed bullet label/value pairs. -/
def rawShort : String := "* **A**: $999 * **B**: $888"

/-- Eleven grouped month/value records whose layout defeats the three
main-path patterns (the `x9` digit blocks the `[^\d]*` bridge of
pattern 2) but not the fallback's zip strategy. -/
def rawEleven : String :=
  "Mes: 2025-01 x9 Total: $2\nMes: 2025-02 x9 Total: $2\nMes: 2025-03 x9 Total: $2\nMes: 2025-04 x9 Total: $2\nMes: 2025-05 x9 Total: $2\nMes: 2025-06 x9 Total: $2\nMes: 2025-07 x9 Total: $2\nMes: 2025-08 x9 Total: $2\nMes: 2025-09 x9 Total: $2\nMes: 2025-10 x9 Total: $2\nMes: 2025-11 x9 Total: $2\n"

/-- One bullet row followed by two grouped month/value records: the
bullet strategy contributes a single row and commits its columns, then
the temporal strategy fires. -/
def rawMixed : String :=
  "* **A**: $2.000\nMes: 2025-01 Total: $3.000\nMes: 2025-02 Total: $4.000"

/-- Two grouped records with non-temporal-looking labels (no 2024–2026,
no `-NN` suffix, no temporal word), reachable only through the fallback. -/
def rawEnero : String :=
  "Mes: Enero 2027 x9 Total: $2.000 z\nMes: Marzo 2027 x9 Total: $3.000 z"

/-- Two bullet rows for the `viz_parser` analyzer. -/
def rawBullets2 : String := "* **Alfa**: $2.500 y * **Beta**: $3.500 y"

/-- A string with a literal backslash-n artifact, a CRLF, and a run of
four newlines — but no stripped-range control character. -/
def c7s : String := "Line1\\nLine2\r\n\n\n\nEnd"

/-- The row set of the chart-classification counterexample. -/
def rowsC3 : List PyRow := [("A", ⟨5000, false⟩), ("B", ⟨3000, false⟩)]

/-- The keyword set the claim about temporal classification enumerates
(spec side of the comparison): `mes`, `año`, `fecha`, `tendencia`, the
years 2024–2026 and the month suffixes `-01`..`-12` — without the
`mensual`, `anual`, `período` entries the code also checks. -/
def claimTemporalKws : List String :=
  ["mes", "año", "fecha", "tendencia", "2024", "2025", "2026",
   "-01", "-02", "-03", "-04", "-05", "-06",
   "-07", "-08", "-09", "-10", "-11", "-12"]

/-! ### Helper lemmas -/

/-- `pyFloat` on an all-digit string is the denoted natural number. -/
theorem pyFloat_all_digits (l : List Char) (hd : ∀ c ∈ l, c.isDigit = true) :
    pyFloat l = if l.isEmpty then none else some (digitsToNat l : ℚ) := by
  unfold pyFloat
  rw [List.takeWhile_eq_self_iff.mpr hd, List.dropWhile_eq_nil_iff.mpr hd]

/-! ## Claims -/

/-- C10: for every `raw_text` whose stripped length is below 30 and every
question, both analyzers immediately return the non-visualizable
`Insufficient data` result, without attempting any extraction strategy. -/
theorem claim_C10 (raw q : String) (t0 t1 t2 : ℚ)
    (h : (pyStrip raw.data).length < 30) :
    Agent.analyze_visualization raw q = insufficientRes ∧
    VizP.analyze_visualization raw q t0 t1 t2 = insufficientRes := by
  constructor
  · unfold Agent.analyze_visualization
    rw [if_pos h]
  · unfold VizP.analyze_visualization
    rw [if_pos h]

/-- Witness for C10 at `rawShort`, a text of stripped length 27 that
contains two well-formed bullet pairs (shown by the `stage1` conjunct)
and is still rejected. -/
theorem claim_C10_witness :
    (pyStrip rawShort.data).length < 30 ∧
    (Agent.stage1 rawShort.data).1.length = 2 ∧
    Agent.analyze_visualization rawShort "top datos" = insufficientRes ∧
    VizP.analyze_visualization rawShort "top datos" 0 1 2 = insufficientRes :=
  ⟨by decide, by decide,
    (claim_C10 rawShort "top datos" 0 1 2 (by decide)).1,
    (claim_C10 rawShort "top datos" 0 1 2 (by decide)).2⟩

/-- The US-format example of the claim: `"1,234.56"` parses to the exact
rational 1234.56. -/
theorem parse_number_ex1 :
    VizP.parse_number "1,234.56".data = some (1234.56 : ℚ) := by
  have h : VizP.parse_number "1,234.56".data
      = some ((digitsToNat "1234".data : ℚ)
          + (digitsToNat "56".data : ℚ) / (10 : ℚ) ^ (2 : ℕ)) := rfl
  have h1 : digitsToNat "1234".data = 1234 := by decide
  have h2 : digitsToNat "56".data = 56 := by decide
  rw [h, h1, h2]
  norm_num

/-- The European-format example of the claim: `"1.234.567"` parses to
1234567. -/
theorem parse_number_ex2 :
    VizP.parse_number "1.234.567".data = some (1234567 : ℚ) := by
  have h : VizP.parse_number "1.234.567".data
      = some ((digitsToNat "1234567".data : ℚ)) := rfl
  have h1 : digitsToNat "1234567".data = 1234567 := by decide
  rw [h, h1]
  norm_num

/-- C2: `_parse_number` disambiguation — with both separators present
every comma is stripped and the rest parsed as a float; else with more
than one dot every dot is stripped; else both separators are stripped
and any accepted result is a natural-valued rational; with the two
concrete conversions of the claim. -/
theorem claim_C2 (v : List Char) (h : ∀ c ∈ v, isNumChar c = true) :
    ((v.contains ',' && v.contains '.') = true →
        VizP.parse_number v = pyFloat (v.filter (fun c => c ≠ ','))) ∧
    ((v.contains ',' && v.contains '.') = false →
      (v.contains '.' && decide (1 < v.count '.')) = true →
        VizP.parse_number v = pyFloat (v.filter (fun c => c ≠ '.'))) ∧
    ((v.contains ',' && v.contains '.') = false →
      (v.contains '.' && decide (1 < v.count '.')) = false →
        ∀ x : ℚ, VizP.parse_number v = some x → ∃ m : ℕ, x = (m : ℚ)) ∧
    VizP.parse_number "1,234.56".data = some (1234.56 : ℚ) ∧
    VizP.parse_number "1.234.567".data = some (1234567 : ℚ) := by
  refine ⟨fun h1 => ?_, fun h1 h2 => ?_, fun h1 h2 x hx => ?_,
    parse_number_ex1, parse_number_ex2⟩
  · unfold VizP.parse_number
    rw [if_pos h1]
  · unfold VizP.parse_number
    rw [if_neg (by rw [h1]; exact Bool.false_ne_true), if_pos h2]
  · have hdig : ∀ c ∈ v.filter (fun c => c ≠ ',' && c ≠ '.'), c.isDigit = true := by
      intro c hc
      have hm := List.mem_filter.mp hc
      have hnum := h c hm.1
      have hne := hm.2
      simp only [Bool.and_eq_true, decide_eq_true_eq] at hne
      simp only [isNumChar, Bool.or_eq_true, decide_eq_true_eq] at hnum
      rcases hnum with (hd | hd) | hd
      · exact hd
      · exact absurd hd hne.2
      · exact absurd hd hne.1
    unfold VizP.parse_number at hx
    rw [if_neg (by rw [h1]; exact Bool.false_ne_true),
      if_neg (by rw [h2]; exact Bool.false_ne_true),
      pyFloat_all_digits _ hdig] at hx
    by_cases he : (v.filter (fun c => c ≠ ',' && c ≠ '.')).isEmpty
    · rw [if_pos he] at hx
      exact absurd hx (by simp)
    · rw [if_neg he] at hx
      exact ⟨digitsToNat (v.filter (fun c => c ≠ ',' && c ≠ '.')),
        (Option.some_inj.mp hx).symm⟩

/-- Witness for C2 at the claim's own concrete string `"1,234.56"`. -/
theorem claim_C2_witness :
    (∀ c ∈ "1,234.56".data, isNumChar c = true) ∧
    VizP.parse_number "1,234.56".data
      = pyFloat ("1,234.56".data.filter (fun c => c ≠ ',')) :=
  ⟨by decide, (claim_C2 "1,234.56".data (by decide)).1 (by decide)⟩

/-- C6: the grouped strategy of the fallback abstains on mismatched
match counts — unequal counts of month matches and value matches yield
zero rows; a non-empty row list forces equal, non-zero counts; and with
equal non-zero counts the rows are exactly the positional zip. -/
theorem claim_C6 (cs : List Char) :
    ((monthFind cs).length ≠ (valueFind cs).length → Agent.exRows1 cs = []) ∧
    (Agent.exRows1 cs ≠ [] →
      (monthFind cs).length = (valueFind cs).length ∧
        monthFind cs ≠ [] ∧ valueFind cs ≠ []) ∧
    (monthFind cs ≠ [] → valueFind cs ≠ [] →
      (monthFind cs).length = (valueFind cs).length →
        Agent.exRows1 cs = ((monthFind cs).zip (valueFind cs)).filterMap (fun mv =>
          match Agent.parseExtractMonthVal mv.2 with
          | some n => if 0 < n.val then some ((⟨mv.1⟩ : String), n) else none
          | none => none)) := by
  unfold Agent.exRows1
  by_cases hg : (!(monthFind cs).isEmpty && !(valueFind cs).isEmpty
      && (monthFind cs).length == (valueFind cs).length) = true
  · have hm := hg
    simp only [Bool.and_eq_true, Bool.not_eq_true', List.isEmpty_eq_false,
      beq_iff_eq] at hm
    refine ⟨fun hne => absurd hm.2 hne, fun _ => ⟨hm.2, hm.1.1, hm.1.2⟩, fun _ _ _ => ?_⟩
    rw [if_pos hg]
  · rw [if_neg hg]
    refine ⟨fun _ => rfl, fun hne => absurd rfl hne, fun hm hv hl => ?_⟩
    exfalso
    apply hg
    simp only [Bool.and_eq_true, Bool.not_eq_true', List.isEmpty_eq_false,
      beq_iff_eq]
    exact ⟨⟨hm, hv⟩, hl⟩

/-- Witness for C6: on `rawEnero` prefixed by a stray extra value line
the counts differ (2 months, 3 values) and the strategy abstains. -/
theorem claim_C6_witness :
    (monthFind ("Monto: $9\n" ++ rawEnero).data).length = 2 ∧
    (valueFind ("Monto: $9\n" ++ rawEnero).data).length = 3 ∧
    Agent.exRows1 ("Monto: $9\n" ++ rawEnero).data = [] :=
  ⟨by decide, by decide, (claim_C6 ("Monto: $9\n" ++ rawEnero).data).1 (by decide)⟩

/-- C1: on inputs that pass the length gate, the strategies run in the
fixed order bullet, grouped-temporal, simple-line, fallback, each later
stage only consulted while fewer than 2 rows have accumulated; and when
the chain and the fallback both end below 2 usable rows the result is
the non-visualizable dict with reason
`"Could not extract sufficient data points"`. -/
theorem claim_C1 (raw q : String) (h : ¬ (pyStrip raw.data).length < 30) :
    (2 ≤ (Agent.stage1 raw.data).1.length →
        Agent.chain raw.data = Agent.stage1 raw.data) ∧
    (2 ≤ (Agent.stage2 raw.data (Agent.stage1 raw.data)).1.length →
        Agent.chain raw.data = Agent.stage2 raw.data (Agent.stage1 raw.data)) ∧
    (2 ≤ (Agent.chain raw.data).1.length →
        Agent.analyze_visualization raw q
          = Agent.buildMain (Agent.chain raw.data).1 (Agent.chain raw.data).2 q) ∧
    ((Agent.chain raw.data).1.length < 2 →
        Agent.analyze_visualization raw q
          = Agent.extract_visualization_from_text raw q) ∧
    ((Agent.chain raw.data).1.length < 2 → (Agent.exRows123 raw.data).length < 2 →
        Agent.analyze_visualization raw q
          = { visualizable := false, type := "none",
              reason := some "Could not extract sufficient data points" }) := by
  have hs2 : ∀ rc, 2 ≤ rc.1.length → Agent.stage2 raw.data rc = rc := by
    intro rc hrc
    unfold Agent.stage2
    rw [if_neg (by omega)]
  have hs3 : ∀ rc, 2 ≤ rc.1.length → Agent.stage3 raw.data rc = rc := by
    intro rc hrc
    unfold Agent.stage3
    rw [if_neg (by omega)]
  refine ⟨fun h1 => ?_, fun h2 => ?_, fun h3 => ?_, fun h4 => ?_, fun h4 h5 => ?_⟩
  · unfold Agent.chain
    rw [hs2 _ h1, hs3 _ h1]
  · unfold Agent.chain
    rw [hs3 _ h2]
  · unfold Agent.analyze_visualization
    rw [if_neg h]
    exact if_neg (by omega)
  · unfold Agent.analyze_visualization
    rw [if_neg h]
    exact if_pos h4
  · unfold Agent.analyze_visualization
    rw [if_neg h]
    rw [if_pos h4]
    unfold Agent.extract_visualization_from_text
    exact if_pos h5

/-- Witness for C1 at `rawNoData`: a 66-character answer on which every
strategy and the fallback yield zero rows, producing exactly the
`"Could not extract sufficient data points"` dict. -/
theorem claim_C1_witness :
    ¬ (pyStrip rawNoData.data).length < 30 ∧
    (Agent.chain rawNoData.data).1.length < 2 ∧
    (Agent.exRows123 rawNoData.data).length < 2 ∧
    Agent.analyze_visualization rawNoData "top"
      = { visualizable := false, type := "none",
          reason := some "Could not extract sufficient data points" } :=
  ⟨by decide, by decide, by decide,
    (claim_C1 rawNoData "top" (by decide)).2.2.2.2 (by decide) (by decide)⟩

/-- Counterexample to C3: on question `"gasto anual"` (and two rows with
neutral labels) none of the keywords the claim enumerates occurs, and
the row count is at most 6, so the claim forces a `pie` classification —
but the code also checks `anual` (besides `mensual` and `período`) and
classifies `line`. -/
theorem claim_C3_cx :
    kwAny claimTemporalKws "gasto anual" rowsC3 = false ∧
    rowsC3.length ≤ 6 ∧
    Agent.mainIsTemporal "gasto anual" rowsC3 = true ∧
    (Agent.buildMain rowsC3 ["categoria", "valor"] "gasto anual").type = "line" :=
  ⟨by decide, by decide, by decide, by decide⟩

/-- C3 (amended): temporal classification uses the code's keyword list —
the claim's list extended with `mensual`, `anual`, `período`; a temporal
row set yields `line`, rows sorted non-decreasingly by label, display
cap 36; a non-temporal set of at most 6 rows yields `pie`, unsorted, cap
12; otherwise `bar`, rows sorted non-increasingly by value, cap 12. -/
theorem claim_C3 (rows : List PyRow) (cols : List String) (q : String) :
    (Agent.mainIsTemporal q rows
      = kwAny (claimTemporalKws ++ ["mensual", "anual", "período"]) q rows) ∧
    (Agent.mainIsTemporal q rows = true →
      (Agent.buildMain rows cols q).type = "line" ∧
      (Agent.buildMain rows cols q).dataRows = some ((sortByLabel rows).take 36) ∧
      (Agent.buildMain rows cols q).isTop10 = some (decide (36 < rows.length)) ∧
      List.Sorted rowLabelLe ((sortByLabel rows).take 36)) ∧
    (Agent.mainIsTemporal q rows = false → rows.length ≤ 6 →
      (Agent.buildMain rows cols q).type = "pie" ∧
      (Agent.buildMain rows cols q).dataRows = some (rows.take 12) ∧
      (Agent.buildMain rows cols q).isTop10 = some (decide (12 < rows.length))) ∧
    (Agent.mainIsTemporal q rows = false → 6 < rows.length →
      (Agent.buildMain rows cols q).type = "bar" ∧
      (Agent.buildMain rows cols q).dataRows = some ((sortByValDesc rows).take 12) ∧
      (Agent.buildMain rows cols q).isTop10 = some (decide (12 < rows.length)) ∧
      List.Sorted rowValGe ((sortByValDesc rows).take 12)) := by
  refine ⟨?_, fun hT => ?_, fun hT h6 => ?_, fun hT h6 => ?_⟩
  · have hperm : Agent.mainTemporalKws.Perm
        (claimTemporalKws ++ ["mensual", "anual", "período"]) := by decide
    unfold Agent.mainIsTemporal kwAny
    rw [List.any_eq, List.any_eq]
    exact decide_eq_decide.mpr
      ⟨fun ⟨x, hx, hp⟩ => ⟨x, hperm.mem_iff.mp hx, hp⟩,
       fun ⟨x, hx, hp⟩ => ⟨x, hperm.mem_iff.mpr hx, hp⟩⟩
  · unfold Agent.buildMain
    rw [hT]
    exact ⟨rfl, rfl, rfl,
      List.Pairwise.sublist (List.take_sublist _ _)
        (List.sorted_insertionSort rowLabelLe rows)⟩
  · unfold Agent.buildMain
    rw [hT]
    simp only [Bool.false_eq_true, if_false, if_pos h6]
    exact ⟨trivial, trivial, trivial⟩
  · unfold Agent.buildMain
    rw [hT]
    simp only [Bool.false_eq_true, if_false, if_neg (by omega : ¬ rows.length ≤ 6)]
    refine ⟨trivial, trivial, trivial, ?_⟩
    exact List.Pairwise.sublist (List.take_sublist _ _)
      (List.sorted_insertionSort rowValGe rows)

/-- Witness for C3 (amended) at the counterexample instance: the code
classifies `rowsC3` with question `"gasto anual"` as temporal `line`
with the label-sorted rows. -/
theorem claim_C3_witness :
    (Agent.buildMain rowsC3 ["categoria", "valor"] "gasto anual").type = "line" ∧
    (Agent.buildMain rowsC3 ["categoria", "valor"] "gasto anual").dataRows
      = some ((sortByLabel rowsC3).take 36) ∧
    (Agent.buildMain rowsC3 ["categoria", "valor"] "gasto anual").isTop10
      = some (decide (36 < rowsC3.length)) ∧
    List.Sorted rowLabelLe ((sortByLabel rowsC3).take 36) :=
  (claim_C3 rowsC3 ["categoria", "valor"] "gasto anual").2.1 (by decide)

/-- Counterexample to C4: `rawEleven` reaches the fallback, which
extracts 11 rows of `line` type.  The claim's `max_display` for `line`
is 36 (and even the universal lower cap is 12), so with `N = 11 ≤
max_display` it requires `isTop10 = false` — but the fallback sets
`isTop10 = (N > 10) = true` although all 11 rows are retained. -/
theorem claim_C4_cx :
    (Agent.analyze_visualization rawEleven "compras").fallback = some true ∧
    (Agent.analyze_visualization rawEleven "compras").type = "line" ∧
    (Agent.analyze_visualization rawEleven "compras").totalRecords = some 11 ∧
    ((Agent.analyze_visualization rawEleven "compras").dataRows.getD []).length = 11 ∧
    (Agent.analyze_visualization rawEleven "compras").isTop10 = some true :=
  ⟨by decide, by decide, by decide, by decide, by decide⟩

/-- C4 (amended): on the main path the claim holds — exactly
`min max_display N` rows are displayed with `max_display = 36` for
temporal and `12` otherwise, `isTop10 = (N > max_display)` and
`totalRecords = N`; on the fallback path the display cap is always 12
(even for `line`) and `isTop10 = (N > 10)`, so `isTop10` is already
`true` for `N ∈ {11, 12}` without any truncation. -/
theorem claim_C4 (rows : List PyRow) (cols : List String) (q : String) :
    (((Agent.buildMain rows cols q).dataRows.getD []).length
        = min (if Agent.mainIsTemporal q rows then 36 else 12) rows.length) ∧
    ((Agent.buildMain rows cols q).isTop10
        = some (decide ((if Agent.mainIsTemporal q rows then 36 else 12)
            < rows.length))) ∧
    ((Agent.buildMain rows cols q).totalRecords = some rows.length) ∧
    (((Agent.extractBuild rows q).dataRows.getD []).length = min 12 rows.length) ∧
    ((Agent.extractBuild rows q).isTop10 = some (decide (10 < rows.length))) ∧
    ((Agent.extractBuild rows q).totalRecords = some rows.length) := by
  unfold Agent.buildMain Agent.extractBuild
  by_cases hT : Agent.mainIsTemporal q rows <;>
    by_cases hE : Agent.extIsTemporal q rows <;>
      by_cases h6 : rows.length ≤ 6 <;>
        simp [hT, hE, h6, sortByLabel, sortByValDesc, List.length_take,
          List.length_insertionSort]

/-- Counterexample to C5: on `rawMixed` the bullet strategy is the first
to contribute rows — a single one, under columns
`["categoria", "valor"]` — yet the final output commits
`["periodo", "total"]` and still contains the bullet row `("A", 2000)`
extracted under the other shape. -/
theorem claim_C5_cx :
    (Agent.stage1 rawMixed.data).1 = [("A", ⟨2000, false⟩)] ∧
    (Agent.stage1 rawMixed.data).2 = ["categoria", "valor"] ∧
    (Agent.analyze_visualization rawMixed "datos").dataColumns
      = some ["periodo", "total"] ∧
    (("A", ⟨2000, false⟩) : PyRow)
      ∈ (Agent.analyze_visualization rawMixed "datos").dataRows.getD [] :=
  ⟨by decide, by decide, by decide, by decide⟩

/-- C5 (amended): the column set is not fixed by the first contributing
strategy — a strategy that alone reaches two rows does fix it, but when
the bullet stage stays below two rows and the grouped pattern matches,
the columns are overwritten to `["periodo", "total"]` while the bullet
rows remain as a prefix of the mixed row set; the simple-line stage only
sets `["nombre", "valor"]` when no earlier stage committed columns. -/
theorem claim_C5 (cs : List Char) :
    (2 ≤ (Agent.stage1 cs).1.length → Agent.chain cs = Agent.stage1 cs) ∧
    ((Agent.stage1 cs).1.length < 2 → mvFind cs ≠ [] →
      (Agent.chain cs).2 = ["periodo", "total"] ∧
      ∃ t, (Agent.chain cs).1 = (Agent.stage1 cs).1 ++ t) ∧
    ((Agent.stage1 cs).1.length < 2 → mvFind cs = [] → bulletFind cs ≠ [] →
      (Agent.chain cs).2 = ["categoria", "valor"]) := by
  refine ⟨fun h1 => ?_, fun h1 h2 => ?_, fun h1 h2 h3 => ?_⟩
  · have hs2 : Agent.stage2 cs (Agent.stage1 cs) = Agent.stage1 cs := by
      unfold Agent.stage2
      rw [if_neg (by omega)]
    have hs3 : Agent.stage3 cs (Agent.stage1 cs) = Agent.stage1 cs := by
      unfold Agent.stage3
      rw [if_neg (by omega)]
    unfold Agent.chain
    rw [hs2, hs3]
  · unfold Agent.chain Agent.stage2
    rw [if_pos h1, if_neg (by simpa using h2)]
    unfold Agent.stage3
    by_cases hlen : ((Agent.stage1 cs).1 ++ Agent.mvRowsA cs).length < 2
    · rw [if_pos hlen]
      exact ⟨rfl, Agent.mvRowsA cs ++ Agent.simpleRowsA cs,
        by rw [List.append_assoc]⟩
    · rw [if_neg hlen]
      exact ⟨rfl, Agent.mvRowsA cs, rfl⟩
  · unfold Agent.chain Agent.stage2
    rw [if_pos h1, if_pos (by simp [h2])]
    have hcols : (Agent.stage1 cs).2 = ["categoria", "valor"] := by
      unfold Agent.stage1
      rw [if_neg (by simpa using h3)]
    unfold Agent.stage3
    rw [if_pos h1, hcols]
    simp

/-- Witness for C5 (amended) at `rawMixed`: the bullet stage has one row,
the grouped pattern matches, and the chain's columns are overwritten
with the bullet row kept as prefix. -/
theorem claim_C5_witness :
    (Agent.chain rawMixed.data).2 = ["periodo", "total"] ∧
    ∃ t, (Agent.chain rawMixed.data).1 = (Agent.stage1 rawMixed.data).1 ++ t :=
  (claim_C5 rawMixed.data).2.1 (by decide) (by decide)

/-- Counterexample to C8: two invocations of `viz_parser`'s analyzer on
identical `(raw_text, question)` but at different wall-clock instants
differ — the output carries the wall-clock-derived `elapsedMs` field. -/
theorem claim_C8_cx :
    VizP.analyze_visualization rawBullets2 "datos" 0 1 2
      ≠ VizP.analyze_visualization rawBullets2 "datos" 0 2 2 := by
  intro he
  have h1 : (VizP.analyze_visualization rawBullets2 "datos" 0 1 2).elapsedMs
      = some (((1 : ℚ) - 0) * 1000) := rfl
  have h2 : (VizP.analyze_visualization rawBullets2 "datos" 0 2 2).elapsedMs
      = some (((2 : ℚ) - 0) * 1000) := rfl
  rw [he, h2] at h1
  have h3 : ((2 : ℚ) - 0) * 1000 = ((1 : ℚ) - 0) * 1000 := Option.some_inj.mp h1
  norm_num at h3

/-- C8 (amended): the extractor core is deterministic up to the
`elapsedMs` field — every other field of `viz_parser`'s output is a pure
function of `(raw_text, question)`, independent of the wall-clock
readings (`agent.py`'s variant reads the clock only for logging, so its
embedding takes no time inputs at all and is a pure function). -/
theorem claim_C8 (raw q : String) (t0 t1 t2 u0 u1 u2 : ℚ) :
    { VizP.analyze_visualization raw q t0 t1 t2 with elapsedMs := none }
      = { VizP.analyze_visualization raw q u0 u1 u2 with elapsedMs := none } := by
  unfold VizP.analyze_visualization VizP.extract_visualization_from_text
    VizP.build_viz_config
  by_cases hshort : (pyStrip raw.data).length < 30
  · rw [if_pos hshort, if_pos hshort]
  · rw [if_neg hshort, if_neg hshort]
    by_cases hlen : (VizP.vpStage2 raw.data (VizP.vpStage1 raw.data)).1.length < 2
    · rw [if_pos hlen, if_pos hlen]
      by_cases hex : (VizP.vpExRows raw.data).length < 2
      · rw [if_pos hex, if_pos hex]
      · rw [if_neg hex, if_neg hex]
    · rw [if_neg hlen, if_neg hlen]

/-- Counterexample to C9: `rawEnero` produces a successful, non-temporal,
untruncated fallback extraction with first column `periodo`; the claim
then requires the title to be the capitalized column name `"Periodo"`
with no Top-N prefix, but the fallback emits its fixed
`"Total por Período (k registros)"` phrase. -/
theorem claim_C9_cx :
    (Agent.analyze_visualization rawEnero "compras").visualizable = true ∧
    (Agent.analyze_visualization rawEnero "compras").type = "bar" ∧
    (Agent.analyze_visualization rawEnero "compras").isTop10 = some false ∧
    (Agent.analyze_visualization rawEnero "compras").dataColumns
      = some ["periodo", "total"] ∧
    (Agent.analyze_visualization rawEnero "compras").title
      = some "Total por Período (2 registros)" ∧
    (Agent.analyze_visualization rawEnero "compras").title ≠ some "Periodo" :=
  ⟨by decide, by decide, by decide, by decide, by decide, by decide⟩

/-- C9 (amended): on the main path the title is the temporal phrase when
temporal, else the capitalized first column name prefixed by `"Top 10 "`
exactly when truncation occurred, and `series` has exactly one entry
naming the numeric column; the fallback instead always titles
`"Total por Período (k registros)"` (`k` the displayed row count) while
its `series` is the single entry `("Total", "total")`. -/
theorem claim_C9 (rows : List PyRow) (cols : List String) (q : String) :
    (Agent.mainIsTemporal q rows = true →
      (Agent.buildMain rows cols q).title = some "Tendencia por Período") ∧
    (Agent.mainIsTemporal q rows = false →
      (Agent.buildMain rows cols q).title
        = some ((if decide (12 < rows.length) = true then "Top 10 " else "")
            ++ (if cols.isEmpty then "Datos" else pyTitle (cols.headD "")))) ∧
    ((Agent.buildMain rows cols q).series
      = some [⟨"Total", if 1 < cols.length then cols.getD 1 "" else "valor"⟩]) ∧
    ((Agent.extractBuild rows q).series = some [⟨"Total", "total"⟩]) ∧
    ((Agent.extractBuild rows q).title
      = some ("Total por Período (" ++ natStr (min 12 rows.length)
          ++ " registros)")) := by
  refine ⟨fun hT => ?_, fun hT => ?_, ?_, rfl, ?_⟩
  · unfold Agent.buildMain
    rw [hT]
    rfl
  · unfold Agent.buildMain
    rw [hT]
    rfl
  · unfold Agent.buildMain
    rfl
  · unfold Agent.extractBuild
    by_cases hE : Agent.extIsTemporal q rows <;>
      simp [hE, sortByLabel, sortByValDesc, List.length_take,
        List.length_insertionSort]

/-- Witness for C9 (amended): a concrete non-temporal main-path build
whose title is the capitalized first column name without prefix. -/
theorem claim_C9_witness :
    (Agent.buildMain rowsC3 ["categoria", "valor"] "compras").title
      = some ((if decide (12 < rowsC3.length) = true then "Top 10 " else "")
          ++ (if (["categoria", "valor"] : List String).isEmpty then "Datos"
              else pyTitle ((["categoria", "valor"] : List String).headD ""))) :=
  (claim_C9 rowsC3 ["categoria", "valor"] "compras").2.1 (by decide)

/-! ### Sanitizer lemmas (claim C7) -/

/-- A two-character occurrence test is monotone under dropping the head. -/
theorem containsSeq_tail (a b c : Char) (l : List Char)
    (h : containsSeq a b (c :: l) = false) : containsSeq a b l = false := by
  cases l with
  | nil => rfl
  | cons d rest =>
      rw [containsSeq] at h
      exact (Bool.or_eq_false_iff.mp h).2

/-- Prepending a character different from `a` cannot create an `a b`
occurrence. -/
theorem containsSeq_cons_of_ne (a b x : Char) (l : List Char) (hx : x ≠ a)
    (h : containsSeq a b l = false) : containsSeq a b (x :: l) = false := by
  cases l with
  | nil => rfl
  | cons d rest =>
      rw [containsSeq, h]
      simp [hx]

/-- Prepending anything before a list whose head is not `b` cannot
create an `a b` occurrence. -/
theorem containsSeq_cons_head_ne (a b x : Char) (l : List Char)
    (hh : ∀ e, l.head? = some e → e ≠ b)
    (h : containsSeq a b l = false) : containsSeq a b (x :: l) = false := by
  cases l with
  | nil => rfl
  | cons d rest =>
      rw [containsSeq, h]
      simp [hh d rfl]

/-- No `a b` occurrence survives `dropWhile`. -/
theorem containsSeq_dropWhile (a b : Char) (p : Char → Bool) (l : List Char)
    (h : containsSeq a b l = false) :
    containsSeq a b (l.dropWhile p) = false := by
  induction l with
  | nil => exact h
  | cons c rest ih =>
      rw [List.dropWhile]
      by_cases hp : p c
      · rw [hp]
        exact ih (containsSeq_tail a b c rest h)
      · rw [Bool.not_eq_true] at hp
        rw [hp]
        exact h

/-- The head of a `replace2` output is the replacement's head or the
input's head. -/
theorem replace2_head_mem (a b r1 : Char) (l : List Char) (e : Char)
    (h : (Fmt.replace2 a b [r1] l).head? = some e) :
    e = r1 ∨ l.head? = some e := by
  match l with
  | [] => exact absurd h (by simp [Fmt.replace2])
  | [c] =>
      rw [Fmt.replace2] at h
      exact Or.inr h
  | c :: d :: cs =>
      rw [Fmt.replace2] at h
      by_cases hm : c = a ∧ d = b
      · rw [if_pos hm] at h
        exact Or.inl (Option.some_inj.mp h).symm
      · rw [if_neg hm] at h
        exact Or.inr h

/-- `replace2` with pattern `a b` and a replacement different from both
pattern characters removes every `a b` occurrence. -/
theorem seq_gone_replace2 (a b r1 : Char) (hra : r1 ≠ a) (hrb : r1 ≠ b) :
    ∀ l, containsSeq a b (Fmt.replace2 a b [r1] l) = false
  | [] => rfl
  | [c] => by rw [Fmt.replace2]; rfl
  | c :: d :: cs => by
      rw [Fmt.replace2]
      by_cases hm : c = a ∧ d = b
      · rw [if_pos hm]
        exact containsSeq_cons_of_ne a b r1 _ hra (seq_gone_replace2 a b r1 hra hrb cs)
      · rw [if_neg hm]
        by_cases hca : c = a
        · have hd : d ≠ b := fun e => hm ⟨hca, e⟩
          refine containsSeq_cons_head_ne a b c _ ?_
            (seq_gone_replace2 a b r1 hra hrb (d :: cs))
          intro e he
          rcases replace2_head_mem a b r1 (d :: cs) e he with h1 | h1
          · rw [h1]; exact hrb
          · exact (Option.some_inj.mp h1) ▸ hd
        · exact containsSeq_cons_of_ne a b c _ hca
            (seq_gone_replace2 a b r1 hra hrb (d :: cs))

/-- `replace2` with a pattern `a2 b2` and a replacement different from
`a` and `b` cannot create an `a b` occurrence. -/
theorem seq_keep_replace2 (a b a2 b2 r1 : Char) (hra : r1 ≠ a) (hrb : r1 ≠ b) :
    ∀ l, containsSeq a b l = false →
      containsSeq a b (Fmt.replace2 a2 b2 [r1] l) = false
  | [], _ => rfl
  | [c], h => by rw [Fmt.replace2]; exact h
  | c :: d :: cs, h => by
      have ht : containsSeq a b (d :: cs) = false := containsSeq_tail a b c _ h
      have htt : containsSeq a b cs = false := containsSeq_tail a b d _ ht
      rw [Fmt.replace2]
      by_cases hm : c = a2 ∧ d = b2
      · rw [if_pos hm]
        exact containsSeq_cons_of_ne a b r1 _ hra
          (seq_keep_replace2 a b a2 b2 r1 hra hrb cs htt)
      · rw [if_neg hm]
        by_cases hca : c = a
        · have hd : d ≠ b := by
            intro e
            rw [containsSeq, hca, e] at h
            simp at h
          refine containsSeq_cons_head_ne a b c _ ?_
            (seq_keep_replace2 a b a2 b2 r1 hra hrb (d :: cs) ht)
          intro x hx
          rcases replace2_head_mem a2 b2 r1 (d :: cs) x hx with h1 | h1
          · rw [h1]; exact hrb
          · exact (Option.some_inj.mp h1) ▸ hd
        · exact containsSeq_cons_of_ne a b c _ hca
            (seq_keep_replace2 a b a2 b2 r1 hra hrb (d :: cs) ht)

/-- The lookbehind pass is the identity once no backslash-n pair is
left (which pass 3 guarantees). -/
theorem subLB_id : ∀ (prev : Option Char) (l : List Char),
    containsSeq '\\' 'n' l = false → Fmt.subLookbehind prev l = l
  | _, [], _ => rfl
  | _, [c], _ => by rw [Fmt.subLookbehind]
  | prev, c :: d :: cs, h => by
      have hm : (c = '\\' && d = 'n') = false := by
        rw [containsSeq] at h
        exact (Bool.or_eq_false_iff.mp h).1
      rw [Fmt.subLookbehind]
      rw [show (c = '\\' && d = 'n' && !(prev == some '\\')) = false by
        rw [hm]; rfl]
      rw [if_neg (by simp)]
      rw [subLB_id (some c) (d :: cs) (containsSeq_tail _ _ _ _ h)]

/-- The head of the newline-collapse output is the input's head. -/
theorem collapse_head (f : Nat) (l : List Char) :
    (Fmt.collapseNl f l).head? = l.head? := by
  match f, l with
  | 0, l => rfl
  | _ + 1, [] => rfl
  | f + 1, c :: cs =>
      rw [Fmt.collapseNl]
      by_cases hc : c = '\n'
      · rw [if_pos hc]
        by_cases hrun : 3 ≤ (cs.takeWhile (fun d => d = '\n')).length + 1
        · rw [if_pos hrun, hc]
          rfl
        · rw [if_neg hrun]
          rfl
      · rw [if_neg hc]
        rfl

/-- A non-newline head cannot open a triple run. -/
theorem hasTriple_cons_of_ne (x : Char) (l : List Char) (hx : x ≠ '\n')
    (h : hasTriple l = false) : hasTriple (x :: l) = false := by
  match l with
  | [] => rfl
  | [d] => rfl
  | d :: e :: rest =>
      rw [hasTriple, h]
      simp [hx]

/-- Characters whose head is not a newline cannot open a triple run. -/
theorem hasTriple_cons_head_ne (x : Char) (l : List Char)
    (hh : ∀ e, l.head? = some e → e ≠ '\n')
    (h : hasTriple l = false) : hasTriple (x :: l) = false := by
  match l with
  | [] => rfl
  | [d] => rfl
  | d :: e :: rest =>
      rw [hasTriple, h]
      simp [hh d rfl]

/-- Two newlines before a list that does not start with a newline and
has no triple cannot form a triple. -/
theorem hasTriple_nlnl (l : List Char)
    (hh : ∀ e, l.head? = some e → e ≠ '\n')
    (h : hasTriple l = false) : hasTriple ('\n' :: '\n' :: l) = false := by
  match l with
  | [] => rfl
  | d :: rest =>
      rw [hasTriple]
      rw [hasTriple_cons_head_ne '\n' (d :: rest) hh h]
      simp [hh d rfl]

/-- Heads surviving `dropWhile` falsify the predicate. -/
theorem dropWhile_head_ne (p : Char → Bool) (l : List Char) (e : Char)
    (he : (l.dropWhile p).head? = some e) : p e = false := by
  have h := List.head?_dropWhile_not p l
  rw [he] at h
  exact h

/-- After the newline-collapse pass no three consecutive newlines
remain. -/
theorem collapse_noTriple : ∀ (f : Nat) (l : List Char), l.length ≤ f →
    hasTriple (Fmt.collapseNl f l) = false := by
  intro f
  induction f with
  | zero =>
      intro l hl
      rw [List.length_eq_zero.mp (Nat.le_zero.mp hl)]
      rfl
  | succ f ih =>
      intro l hl
      match l with
      | [] => rfl
      | c :: cs =>
          rw [Fmt.collapseNl]
          have hrest : (cs.dropWhile (fun d => d = '\n')).length ≤ f := by
            have h1 := (List.dropWhile_sublist (l := cs)
              (fun d => d = '\n')).length_le
            have h2 : cs.length ≤ f := by
              simpa using Nat.le_of_succ_le_succ hl
            omega
          have hih := ih _ hrest
          have hhead : ∀ e,
              (Fmt.collapseNl f (cs.dropWhile (fun d => d = '\n'))).head? = some e →
                e ≠ '\n' := by
            intro e he
            rw [collapse_head] at he
            have := dropWhile_head_ne _ _ _ he
            simpa using this
          by_cases hc : c = '\n'
          · rw [if_pos hc]
            by_cases hrun : 3 ≤ (cs.takeWhile (fun d => d = '\n')).length + 1
            · rw [if_pos hrun]
              exact hasTriple_nlnl _ hhead hih
            · rw [if_neg hrun]
              have hrunlen : (cs.takeWhile (fun d => d = '\n')).length ≤ 1 := by
                omega
              match hrw : cs.takeWhile (fun d => d = '\n'), hrunlen with
              | [], _ =>
                  rw [List.cons_append, List.nil_append]
                  exact hasTriple_cons_head_ne c _ hhead hih
              | [d], _ =>
                  have hd : d = '\n' := by
                    have := List.mem_takeWhile_imp (l := cs)
                      (p := fun d => decide (d = '\n')) (x := d)
                      (by rw [hrw]; exact List.mem_singleton_self d)
                    simpa using this
                  rw [List.cons_append, List.singleton_append, hd, hc]
                  exact hasTriple_nlnl _ hhead hih
          · rw [if_neg hc]
            exact hasTriple_cons_of_ne c _ hc
              (ih cs (by simpa using Nat.le_of_succ_le_succ hl))

/-- The newline collapse cannot create an `a b` occurrence when `a` is
not a newline (runs are replaced by newlines, never emptied). -/
theorem containsSeq_collapse (a b : Char) (ha : a ≠ '\n') :
    ∀ (f : Nat) (l : List Char), containsSeq a b l = false →
      containsSeq a b (Fmt.collapseNl f l) = false := by
  intro f
  induction f with
  | zero => exact fun l h => h
  | succ f ih =>
      intro l h
      match l with
      | [] => rfl
      | c :: cs =>
          rw [Fmt.collapseNl]
          have hrest := ih (cs.dropWhile (fun d => d = '\n'))
            (containsSeq_dropWhile a b _ cs (containsSeq_tail a b c cs h))
          by_cases hc : c = '\n'
          · rw [if_pos hc]
            by_cases hrun : 3 ≤ (cs.takeWhile (fun d => d = '\n')).length + 1
            · rw [if_pos hrun]
              exact containsSeq_cons_of_ne a b '\n' _ (fun e => ha e.symm)
                (containsSeq_cons_of_ne a b '\n' _ (fun e => ha e.symm) hrest)
            · rw [if_neg hrun]
              have hrunlen : (cs.takeWhile (fun d => d = '\n')).length ≤ 1 := by
                omega
              match hrw : cs.takeWhile (fun d => d = '\n'), hrunlen with
              | [], _ =>
                  rw [List.cons_append, List.nil_append]
                  exact containsSeq_cons_of_ne a b c _
                    (fun e => ha (e ▸ hc)) hrest
              | [d], _ =>
                  have hd : d = '\n' := by
                    have := List.mem_takeWhile_imp (l := cs)
                      (p := fun d => decide (d = '\n')) (x := d)
                      (by rw [hrw]; exact List.mem_singleton_self d)
                    simpa using this
                  rw [List.cons_append, List.singleton_append]
                  exact containsSeq_cons_of_ne a b c _ (fun e => ha (e ▸ hc))
                    (containsSeq_cons_of_ne a b d _ (fun e => ha (e ▸ hd)) hrest)
          · rw [if_neg hc]
            by_cases hca : c = a
            · refine containsSeq_cons_head_ne a b c _ ?_ (ih cs (containsSeq_tail a b c cs h))
              intro e he
              rw [collapse_head] at he
              intro heb
              match cs, he with
              | d :: cs', he =>
                  have hde : d = e := Option.some_inj.mp he
                  rw [containsSeq, hca, hde, heb] at h
                  simp at h
            · exact containsSeq_cons_of_ne a b c _ hca
                (ih cs (containsSeq_tail a b c cs h))

/-- Membership through `replace1`. -/
theorem mem_replace1 (a : Char) (r : List Char) (c : Char) :
    ∀ l, c ∈ Fmt.replace1 a r l → c ∈ r ∨ c ∈ l := by
  intro l
  induction l with
  | nil => intro h; exact absurd h (List.not_mem_nil c)
  | cons d rest ih =>
      rw [Fmt.replace1]
      by_cases hd : d = a
      · rw [if_pos hd]
        intro h
        rcases List.mem_append.mp h with h1 | h1
        · exact Or.inl h1
        · rcases ih h1 with h2 | h2
          · exact Or.inl h2
          · exact Or.inr (List.mem_cons_of_mem d h2)
      · rw [if_neg hd]
        intro h
        rcases List.mem_cons.mp h with h1 | h1
        · exact Or.inr (h1 ▸ List.mem_cons_self d rest)
        · rcases ih h1 with h2 | h2
          · exact Or.inl h2
          · exact Or.inr (List.mem_cons_of_mem d h2)

/-- `replace1` eliminates its pattern character when the replacement
avoids it. -/
theorem replace1_not_mem (a : Char) (r : List Char) (ha : a ∉ r) :
    ∀ l, a ∉ Fmt.replace1 a r l := by
  intro l
  induction l with
  | nil => exact List.not_mem_nil a
  | cons d rest ih =>
      rw [Fmt.replace1]
      by_cases hd : d = a
      · rw [if_pos hd]
        intro h
        rcases List.mem_append.mp h with h1 | h1
        · exact ha h1
        · exact ih h1
      · rw [if_neg hd]
        intro h
        rcases List.mem_cons.mp h with h1 | h1
        · exact hd h1.symm
        · exact ih h1

/-- Membership through `replace2`. -/
theorem mem_replace2 (a b : Char) (r : List Char) (c : Char) :
    ∀ l, c ∈ Fmt.replace2 a b r l → c ∈ r ∨ c ∈ l
  | [], h => absurd h (List.not_mem_nil c)
  | [d], h => by
      rw [Fmt.replace2] at h
      exact Or.inr h
  | d :: e :: cs, h => by
      rw [Fmt.replace2] at h
      by_cases hm : d = a ∧ e = b
      · rw [if_pos hm] at h
        rcases List.mem_append.mp h with h1 | h1
        · exact Or.inl h1
        · rcases mem_replace2 a b r c cs h1 with h2 | h2
          · exact Or.inl h2
          · exact Or.inr (List.mem_cons_of_mem d (List.mem_cons_of_mem e h2))
      · rw [if_neg hm] at h
        rcases List.mem_cons.mp h with h1 | h1
        · exact Or.inr (h1 ▸ List.mem_cons_self d _)
        · rcases mem_replace2 a b r c (e :: cs) h1 with h2 | h2
          · exact Or.inl h2
          · exact Or.inr (List.mem_cons_of_mem d h2)

/-- Membership through the lookbehind pass. -/
theorem mem_subLB (c : Char) :
    ∀ (prev : Option Char) (l : List Char),
      c ∈ Fmt.subLookbehind prev l → c ∈ l ∨ c = '\n'
  | _, [], h => absurd h (List.not_mem_nil c)
  | _, [d], h => by
      rw [Fmt.subLookbehind] at h
      exact Or.inl h
  | prev, d :: e :: cs, h => by
      rw [Fmt.subLookbehind] at h
      by_cases hm : (d = '\\' && e = 'n' && !(prev == some '\\')) = true
      · rw [if_pos hm] at h
        rcases List.mem_cons.mp h with h1 | h1
        · exact Or.inr h1
        · rcases mem_subLB c (some 'n') cs h1 with h2 | h2
          · exact Or.inl (List.mem_cons_of_mem d (List.mem_cons_of_mem e h2))
          · exact Or.inr h2
      · rw [if_neg hm] at h
        rcases List.mem_cons.mp h with h1 | h1
        · exact Or.inl (h1 ▸ List.mem_cons_self d _)
        · rcases mem_subLB c (some d) (e :: cs) h1 with h2 | h2
          · exact Or.inl (List.mem_cons_of_mem d h2)
          · exact Or.inr h2

/-- Membership through the newline collapse. -/
theorem mem_collapse (c : Char) : ∀ (f : Nat) (l : List Char),
    c ∈ Fmt.collapseNl f l → c ∈ l ∨ c = '\n' := by
  intro f
  induction f with
  | zero => exact fun l h => Or.inl h
  | succ f ih =>
      intro l h
      match l with
      | [] => exact absurd h (List.not_mem_nil c)
      | d :: cs =>
          rw [Fmt.collapseNl] at h
          by_cases hd : d = '\n'
          · rw [if_pos hd] at h
            rcases List.mem_append.mp h with h1 | h1
            · by_cases hrun : 3 ≤ (cs.takeWhile (fun e => e = '\n')).length + 1
              · rw [if_pos hrun] at h1
                rcases List.mem_cons.mp h1 with h2 | h2
                · exact Or.inr h2
                · exact Or.inr (by simpa using h2)
              · rw [if_neg hrun] at h1
                rcases List.mem_cons.mp h1 with h2 | h2
                · exact Or.inl (h2 ▸ List.mem_cons_self d _)
                · have := List.mem_takeWhile_imp h2
                  exact Or.inr (by simpa using this)
            · rcases ih _ h1 with h2 | h2
              · exact Or.inl (List.mem_cons_of_mem d
                  ((List.dropWhile_sublist _).subset h2))
              · exact Or.inr h2
          · rw [if_neg hd] at h
            rcases List.mem_cons.mp h with h1 | h1
            · exact Or.inl (h1 ▸ List.mem_cons_self d _)
            · rcases ih _ h1 with h2 | h2
              · exact Or.inl (List.mem_cons_of_mem d h2)
              · exact Or.inr h2

/-- Unconditional guarantees of the text sanitizer: the output contains
no character of the stripped control class and no carriage return. -/
theorem sanitizeChars_clean (cs : List Char) :
    ∀ c ∈ Fmt.sanitizeChars cs, Fmt.strippedCtrl c = false ∧ c ≠ '\r' := by
  intro c hc
  unfold Fmt.sanitizeChars Fmt.pass6 at hc
  have h5 := List.mem_filter.mp hc
  refine ⟨by simpa using h5.2, ?_⟩
  intro he
  subst he
  have h51 := h5.1
  unfold Fmt.pass5 at h51
  rcases mem_collapse '\r' _ _ h51 with h41 | h41
  · unfold Fmt.pass4 at h41
    rcases mem_subLB '\r' none _ h41 with h31 | h31
    · unfold Fmt.pass3 at h31
      rcases mem_replace2 '\\' 't' ['\t'] '\r' _ h31 with h21 | h21
      · exact absurd h21 (by decide)
      rcases mem_replace2 '\\' 'n' ['\n'] '\r' _ h21 with h11 | h11
      · exact absurd h11 (by decide)
      unfold Fmt.pass2 at h11
      rcases mem_replace1 '\x00' [] '\r' _ h11 with h01 | h01
      · exact absurd h01 (List.not_mem_nil _)
      unfold Fmt.pass1 at h01
      exact replace1_not_mem '\r' ['\n'] (by decide) _ h01
    · exact absurd h31 (by decide)
  · exact absurd h41 (by decide)

/-- Before the final control strip, every character is either a newline,
a tab, or a non-NUL input character (hence clean under the claim's
control-free hypothesis), so the strip is the identity there; and the
pre-strip text has no triple newline and no literal escape pair. -/
theorem sanitizeChars_good (cs : List Char)
    (h : ∀ c ∈ cs, Fmt.strippedCtrl c = false ∨ c = '\x00') :
    hasTriple (Fmt.sanitizeChars cs) = false ∧
    containsSeq '\\' 'n' (Fmt.sanitizeChars cs) = false ∧
    containsSeq '\\' 't' (Fmt.sanitizeChars cs) = false := by
  have hpre : ∀ c ∈ Fmt.pass5 (Fmt.pass4 (Fmt.pass3 (Fmt.pass2 (Fmt.pass1 cs)))),
      Fmt.strippedCtrl c = false := by
    intro c hc
    unfold Fmt.pass5 at hc
    rcases mem_collapse c _ _ hc with h4 | h4
    · unfold Fmt.pass4 at h4
      rcases mem_subLB c none _ h4 with h3 | h3
      · unfold Fmt.pass3 at h3
        rcases mem_replace2 '\\' 't' ['\t'] c _ h3 with h2 | h2
        · rw [List.mem_singleton.mp h2]
          decide
        rcases mem_replace2 '\\' 'n' ['\n'] c _ h2 with h1 | h1
        · rw [List.mem_singleton.mp h1]
          decide
        have hc0 : c ≠ '\x00' := by
          intro he
          subst he
          unfold Fmt.pass2 at h1
          exact replace1_not_mem '\x00' [] (List.not_mem_nil _) _ h1
        unfold Fmt.pass2 at h1
        rcases mem_replace1 '\x00' [] c _ h1 with h0 | h0
        · exact absurd h0 (List.not_mem_nil _)
        unfold Fmt.pass1 at h0
        rcases mem_replace1 '\r' ['\n'] c _ h0 with hn | hn
        · rw [List.mem_singleton.mp hn]
          decide
        rcases mem_replace2 '\r' '\n' ['\n'] c _ hn with hm | hm
        · rw [List.mem_singleton.mp hm]
          decide
        rcases h c hm with hok | h00
        · exact hok
        · exact absurd h00 hc0
      · rw [h3]
        decide
    · rw [h4]
      decide
  have hfilter : Fmt.sanitizeChars cs
      = Fmt.pass5 (Fmt.pass4 (Fmt.pass3 (Fmt.pass2 (Fmt.pass1 cs)))) := by
    unfold Fmt.sanitizeChars Fmt.pass6
    apply List.filter_eq_self.mpr
    intro a ha
    simpa using hpre a ha
  have h3bsn : containsSeq '\\' 'n'
      (Fmt.pass3 (Fmt.pass2 (Fmt.pass1 cs))) = false := by
    unfold Fmt.pass3
    exact seq_keep_replace2 '\\' 'n' '\\' 't' '\t' (by decide) (by decide) _
      (seq_gone_replace2 '\\' 'n' '\n' (by decide) (by decide) _)
  have h3bst : containsSeq '\\' 't'
      (Fmt.pass3 (Fmt.pass2 (Fmt.pass1 cs))) = false := by
    unfold Fmt.pass3
    exact seq_gone_replace2 '\\' 't' '\t' (by decide) (by decide) _
  have h4eq : Fmt.pass4 (Fmt.pass3 (Fmt.pass2 (Fmt.pass1 cs)))
      = Fmt.pass3 (Fmt.pass2 (Fmt.pass1 cs)) := subLB_id none _ h3bsn
  rw [hfilter]
  unfold Fmt.pass5
  rw [h4eq]
  exact ⟨collapse_noTriple _ _ le_rfl,
    containsSeq_collapse '\\' 'n' (by decide) _ _ h3bsn,
    containsSeq_collapse '\\' 't' (by decide) _ _ h3bst⟩

mutual

/-- The string leaves of a sanitized value are the sanitized string
leaves. -/
theorem leaves_sanV : ∀ v : Fmt.PyVal,
    Fmt.stringLeaves (Fmt.sanitize_dict_for_json v)
      = (Fmt.stringLeaves v).map Fmt.sanitize_text_for_json
  | .pstr _ => rfl
  | .patom => rfl
  | .parr l => by
      rw [Fmt.sanitize_dict_for_json, Fmt.stringLeaves, Fmt.stringLeaves,
        leaves_sanS l]
  | .pobj kvs => by
      rw [Fmt.sanitize_dict_for_json, Fmt.stringLeaves, Fmt.stringLeaves,
        leaves_sanM kvs]

/-- List version of `leaves_sanV`. -/
theorem leaves_sanS : ∀ l : Fmt.PyValSeq,
    Fmt.seqLeaves (Fmt.sanitizeSeq l)
      = (Fmt.seqLeaves l).map Fmt.sanitize_text_for_json
  | .nil => rfl
  | .cons v tl => by
      rw [Fmt.sanitizeSeq, Fmt.seqLeaves, Fmt.seqLeaves, leaves_sanV v,
        leaves_sanS tl, List.map_append]

/-- Dict version of `leaves_sanV`. -/
theorem leaves_sanM : ∀ kvs : Fmt.PyValMap,
    Fmt.mapLeaves (Fmt.sanitizeMap kvs)
      = (Fmt.mapLeaves kvs).map Fmt.sanitize_text_for_json
  | .nil => rfl
  | .cons k v tl => by
      rw [Fmt.sanitizeMap, Fmt.mapLeaves, Fmt.mapLeaves, leaves_sanV v,
        leaves_sanM tl, List.map_append]

end

/-- Counterexample to C7: the input string `"\n\n\x01\n"` contains a
control character between two newline runs; sanitization collapses
nothing (no pre-strip triple), then strips the control character — and
the result `"\n\n\n"` is a run of three consecutive newlines, which the
claim forbids. -/
theorem claim_C7_cx :
    Fmt.stringLeaves (Fmt.sanitize_dict_for_json (Fmt.PyVal.pstr "\n\n\x01\n"))
      = ["\n\n\n"] ∧
    hasTriple ("\n\n\n").data = true :=
  ⟨by decide, by decide⟩

/-- C7 (amended): for every nested structure, every string leaf of the
sanitized result is free of the stripped control classes (0x00–0x08,
0x0B, 0x0C, 0x0E–0x1F, 0x7F) and of carriage returns — and, provided
the input's string leaves contain no stripped-range control character
other than NUL, the leaves also contain no run of three newlines and no
remaining literal backslash-n or backslash-t sequence.  (Without that
hypothesis the final control strip can rejoin newline runs or re-expose
a literal escape, as the counterexample shows.) -/
theorem claim_C7 (v : Fmt.PyVal)
    (h : ∀ s ∈ Fmt.stringLeaves v, ∀ c ∈ s.data,
      Fmt.strippedCtrl c = false ∨ c = '\x00') :
    ∀ s ∈ Fmt.stringLeaves (Fmt.sanitize_dict_for_json v),
      (∀ c ∈ s.data, Fmt.strippedCtrl c = false ∧ c ≠ '\r') ∧
      hasTriple s.data = false ∧
      containsSeq '\\' 'n' s.data = false ∧
      containsSeq '\\' 't' s.data = false := by
  intro s hs
  rw [leaves_sanV] at hs
  rcases List.mem_map.mp hs with ⟨s0, hs0, rfl⟩
  have h0 := h s0 hs0
  unfold Fmt.sanitize_text_for_json
  by_cases he : s0.isEmpty
  · rw [if_pos he]
    exact ⟨fun c hc => absurd hc (List.not_mem_nil c), rfl, rfl, rfl⟩
  · rw [if_neg he]
    exact ⟨fun c hc => sanitizeChars_clean s0.data c hc,
      (sanitizeChars_good s0.data h0).1,
      (sanitizeChars_good s0.data h0).2.1,
      (sanitizeChars_good s0.data h0).2.2⟩

/-- Witness for C7 at a single-string structure containing a literal
backslash-n, a CRLF, a NUL-free four-newline run: the hypothesis holds
and the sanitized leaf satisfies every guarantee. -/
theorem claim_C7_witness :
    (∀ s ∈ Fmt.stringLeaves (Fmt.PyVal.pstr c7s), ∀ c ∈ s.data,
      Fmt.strippedCtrl c = false ∨ c = '\x00') ∧
    ((∀ c ∈ (Fmt.sanitize_text_for_json c7s).data,
        Fmt.strippedCtrl c = false ∧ c ≠ '\r') ∧
      hasTriple (Fmt.sanitize_text_for_json c7s).data = false ∧
      containsSeq '\\' 'n' (Fmt.sanitize_text_for_json c7s).data = false ∧
      containsSeq '\\' 't' (Fmt.sanitize_text_for_json c7s).data = false) :=
  ⟨by decide,
    claim_C7 (Fmt.PyVal.pstr c7s) (by decide)
      (Fmt.sanitize_text_for_json c7s) (by decide)⟩
